import Mathlib

/-!
Verification of the redeco-frontend repository's JSON-handling, payload-building
and validation logic, shallowly embedded in Lean.

The embedding models:
* JSON values (`Json`) together with Python truthiness and the `str()` rendering
  used by the source when joining list elements into error messages;
* the Python string helpers used by the views (`strip`, `upper`, `lower`,
  `isdigit`, `int(...)`), restricted to the ASCII range, which is the range
  exercised by the repository's form values;
* `services.get_token` (token extraction and error policy),
  the `_extract_message` helpers of `services.get_token` and
  `services.call_public_endpoint`, and the top-level-only message chain of
  `services.post_reune_consultas_general`;
* the catalog response normalizer of `views.catalogs_medios` /
  `views.create_queja`;
* the `views.create_queja` POST flow (field collection, validation, date
  reformatting via `_fmt_date`, payload construction, remote calls);
* the `Cliente` model validation (`models.Cliente.clean`, the relevant field
  checks run by `full_clean`) and the `views.clientes_create` POST flow.

JSON numbers are modelled as integers: no claim under study involves
non-integral numerics, and floating point is outside the embedding.
-/

/-- JSON value, as handled by the Python source (dicts modelled as
association lists in insertion order, matching Python dict iteration order). -/
inductive Json where
  | null : Json
  | bool (b : Bool) : Json
  | num (n : Int) : Json
  | str (s : String) : Json
  | arr (xs : List Json) : Json
  | obj (fields : List (String × Json)) : Json

/-- First binding of a key in an association list (Python dicts have unique
keys; lookup of the first binding coincides with dict access). -/
def lookupField : List (String × Json) → String → Option Json
  | [], _ => none
  | (k', v) :: rest, k => if k' = k then some v else lookupField rest k

/-- Python `d.get(k)`: key lookup on a JSON object, `none` on non-objects. -/
def Json.get : Json → String → Option Json
  | .obj fields, k => lookupField fields k
  | _, _ => none

/-- Python `d.get(k)` with the default `None` materialized as `Json.null`. -/
def Json.getD (j : Json) (k : String) : Json :=
  (j.get k).getD .null

/-- Python truthiness of a JSON value (`None`, `False`, `0`, `""`, `[]` and
an empty dict are falsy). -/
def Json.truthy : Json → Bool
  | .null => false
  | .bool b => b
  | .num n => n != 0
  | .str s => !s.isEmpty
  | .arr xs => !xs.isEmpty
  | .obj fields => !fields.isEmpty

/-- Python `a or b` on JSON values. -/
def pyOrJ (a b : Json) : Json :=
  if a.truthy then a else b

mutual

/-- Python `repr()` of a JSON value (string quoting simplified to plain
single quotes; only ever used to render values inside error messages, never
compared against a concrete expectation in the claims). -/
def pyRepr : Json → String
  | .null => "None"
  | .bool true => "True"
  | .bool false => "False"
  | .num n => toString n
  | .str s => "\x27" ++ s ++ "\x27"
  | .arr xs => "[" ++ ", ".intercalate (pyReprList xs) ++ "]"
  | .obj fields => "\x7b" ++ ", ".intercalate (pyReprFields fields) ++ "\x7d"

/-- Rendering of each element of a JSON array. -/
def pyReprList : List Json → List String
  | [] => []
  | x :: xs => pyRepr x :: pyReprList xs

/-- Rendering of each `key: value` entry of a JSON object. -/
def pyReprFields : List (String × Json) → List String
  | [] => []
  | (k, v) :: rest => ("\x27" ++ k ++ "\x27: " ++ pyRepr v) :: pyReprFields rest

end

/-- Python `str()` of a JSON value: identity on strings, `repr`-like
otherwise (this is what `'; '.join(str(x) for x in v)` applies per element). -/
def pyStr : Json → String
  | .str s => s
  | j => pyRepr j

/-- Characters stripped by Python `str.strip()` (ASCII whitespace; the forms
additionally never contain the rarer Unicode whitespace). -/
def isPySpace (c : Char) : Bool :=
  c = ' ' || c = '\t' || c = '\n' || c = '\r' || c = '\x0b' || c = '\x0c'

/-- Python `str.strip()`. -/
def pyStrip (s : String) : String :=
  String.mk (((s.toList.dropWhile isPySpace).reverse.dropWhile isPySpace).reverse)

/-- Python `str.upper()` (ASCII range). -/
def pyUpper (s : String) : String :=
  String.mk (s.toList.map Char.toUpper)

/-- Python `str.lower()` (ASCII range). -/
def pyLower (s : String) : String :=
  String.mk (s.toList.map Char.toLower)

/-- Python `str.isdigit()`: non-empty and every character a decimal digit
(ASCII digits; the forms never carry the exotic Unicode digit classes). -/
def isdigitStr (s : String) : Bool :=
  !s.isEmpty && s.toList.all Char.isDigit

/-- Numeric value of one decimal digit character. -/
def digitVal (c : Char) : Nat :=
  c.toNat - '0'.toNat

/-- Value of a list of decimal digit characters. -/
def digitsVal (l : List Char) : Nat :=
  l.foldl (fun a c => a * 10 + digitVal c) 0

/-- Value of an all-digits string (what `int(s)` yields when `s.isdigit()`). -/
def strDigitsNat (s : String) : Nat :=
  digitsVal s.toList

/-- Core of Python `int(s)` on an already-stripped character list: an optional
sign followed by at least one decimal digit (underscore grouping is not used
by any form value and is not modelled). -/
def pyIntCore : List Char → Option Int
  | '+' :: rest =>
      if rest ≠ [] ∧ rest.all Char.isDigit then some (Int.ofNat (digitsVal rest)) else none
  | '-' :: rest =>
      if rest ≠ [] ∧ rest.all Char.isDigit then some (-(Int.ofNat (digitsVal rest))) else none
  | l =>
      if l ≠ [] ∧ l.all Char.isDigit then some (Int.ofNat (digitsVal l)) else none

/-- Python `int(s)`: surrounding whitespace ignored, `ValueError` on anything
that is not a signed decimal literal. -/
def pyInt (s : String) : Except String Int :=
  match pyIntCore (pyStrip s).toList with
  | some n => .ok n
  | none => .error ("invalid literal for int() with base 10: \x27" ++ s ++ "\x27")

/-- Gregorian leap-year test, as used by `datetime.date`. -/
def isLeapYear (y : Int) : Bool :=
  y % 4 = 0 && (y % 100 ≠ 0 || y % 400 = 0)

/-- Number of days of a month, as validated by the `datetime.date`
constructor inside `strptime`. -/
def daysInMonth (y : Int) (m : Nat) : Nat :=
  if m = 2 then (if isLeapYear y then 29 else 28)
  else if m = 4 || m = 6 || m = 9 || m = 11 then 30
  else 31

/-- Candidate matches of `strptime`'s `%m` pattern `1[0-2]|0[1-9]|[1-9]`
against a character list, in the regex's alternation order; each candidate
carries the unconsumed remainder. -/
def monthCands : List Char → List (Nat × List Char)
  | c1 :: c2 :: rest =>
      (if c1 = '1' ∧ (c2 = '0' ∨ c2 = '1' ∨ c2 = '2') then [(10 + digitVal c2, rest)] else [])
      ++ (if c1 = '0' ∧ c2.isDigit ∧ c2 ≠ '0' then [(digitVal c2, rest)] else [])
      ++ (if c1.isDigit ∧ c1 ≠ '0' then [(digitVal c1, c2 :: rest)] else [])
  | [c1] => if c1.isDigit ∧ c1 ≠ '0' then [(digitVal c1, [])] else []
  | [] => []

/-- Candidate matches of `strptime`'s `%d` pattern
`3[01]|[12]\d|0[1-9]|[1-9]`, in the regex's alternation order. -/
def dayCands : List Char → List (Nat × List Char)
  | c1 :: c2 :: rest =>
      (if c1 = '3' ∧ (c2 = '0' ∨ c2 = '1') then [(30 + digitVal c2, rest)] else [])
      ++ (if (c1 = '1' ∨ c1 = '2') ∧ c2.isDigit then [(10 * digitVal c1 + digitVal c2, rest)] else [])
      ++ (if c1 = '0' ∧ c2.isDigit ∧ c2 ≠ '0' then [(digitVal c2, rest)] else [])
      ++ (if c1.isDigit ∧ c1 ≠ '0' then [(digitVal c1, c2 :: rest)] else [])
  | [c1] => if c1.isDigit ∧ c1 ≠ '0' then [(digitVal c1, [])] else []
  | [] => []

/-- Calendar validation performed by the `datetime` constructor after the
regex match (`MINYEAR = 1`; the regex caps the year at four digits). -/
def validDate (y : Int) (m d : Nat) : Bool :=
  1 ≤ y && 1 ≤ d && d ≤ daysInMonth y m

/-- Model of `datetime.strptime(s, '%Y-%m-%d')`: `%Y` is exactly four digits, the
first full regex match is committed, then the date is validated. Returns
`(year, month, day)` or `none` (a raised `ValueError`). -/
def strptimeYmd (s : String) : Option (Int × Nat × Nat) :=
  match s.toList with
  | y1 :: y2 :: y3 :: y4 :: '-' :: rest =>
      if (y1.isDigit ∧ y2.isDigit ∧ y3.isDigit ∧ y4.isDigit) then
        let y : Int := Int.ofNat (digitsVal [y1, y2, y3, y4])
        ((monthCands rest).findSome? fun mc =>
          match mc.2 with
          | '-' :: r2 =>
              (dayCands r2).findSome? fun dc =>
                if dc.2 = [] then some (y, mc.1, dc.1) else none
          | _ => none).bind fun t =>
          if validDate t.1 t.2.1 t.2.2 then some t else none
      else none
  | _ => none

/-- Model of `datetime.strptime(s, '%d/%m/%Y')`, same conventions as `strptimeYmd`. -/
def strptimeDmy (s : String) : Option (Int × Nat × Nat) :=
  ((dayCands s.toList).findSome? fun dc =>
    match dc.2 with
    | '/' :: r2 =>
        (monthCands r2).findSome? fun mc =>
          match mc.2 with
          | '/' :: y1 :: y2 :: y3 :: y4 :: [] =>
              if (y1.isDigit ∧ y2.isDigit ∧ y3.isDigit ∧ y4.isDigit) then
                some (Int.ofNat (digitsVal [y1, y2, y3, y4]), mc.1, dc.1)
              else none
          | _ => none
    | _ => none).bind fun t =>
    if validDate t.1 t.2.1 t.2.2 then some t else none

/-- Zero-pad a number to two decimal digits. -/
def pad2 (n : Nat) : String :=
  if n < 10 then "0" ++ toString n else toString n

/-- Render a year as four decimal digits (every year in scope was parsed
from a four-digit field; `%Y` zero-padding below year 1000 is
platform-dependent in CPython and never reached by the claims). -/
def pad4 (y : Int) : String :=
  let n := y.toNat
  if n < 10 then "000" ++ toString n
  else if n < 100 then "00" ++ toString n
  else if n < 1000 then "0" ++ toString n
  else toString n

/-- Rendering `dt.strftime('%d/%m/%Y')`. -/
def strftimeDmy (y : Int) (m d : Nat) : String :=
  pad2 d ++ "/" ++ pad2 m ++ "/" ++ pad4 y

/-- Python `'-' in d`. -/
def containsDash (s : String) : Bool :=
  s.toList.contains '-'

/-- Function `_fmt_date` from `views.create_queja`: empty input yields `None`
(modelled as `none`); a string containing `-` is parsed as `%Y-%m-%d` and
re-rendered as `%d/%m/%Y`; otherwise it is parsed as `%d/%m/%Y` and
re-rendered; on any parse failure the original string is returned. -/
def fmt_date (d : String) : Option String :=
  if d = "" then none
  else if containsDash d then
    match strptimeYmd d with
    | some t => some (strftimeDmy t.1 t.2.1 t.2.2)
    | none => some d
  else
    match strptimeDmy d with
    | some t => some (strftimeDmy t.1 t.2.1 t.2.2)
    | none => some d

/-- The candidate-key probing loop of `views.catalogs_medios` (and of the
medios/productos/causas blocks of `views.create_queja` /
`views.catalogs_productos` / `views.catalogs_causas`):
`for key in keys: val = response.get(key); if isinstance(val, list) and val: take val`. -/
def firstNonEmptyListAt : List String → Json → Option (List Json)
  | [], _ => none
  | k :: rest, j =>
      match j.get k with
      | some (.arr (x :: xs)) => some (x :: xs)
      | _ => firstNonEmptyListAt rest j

/-- The response normalization of `views.catalogs_medios` lines 86-107 (and
the structurally identical blocks parameterized by other candidate key
lists): list input is returned as-is; on a dict, the first non-empty list
under a candidate key is taken, then the same probe inside a dict-valued
`data`, then a list-valued `data` itself; otherwise the empty list. -/
def normalize_response (keys : List String) (response : Json) : List Json :=
  match response with
  | .arr xs => xs
  | .obj fields =>
      match firstNonEmptyListAt keys (.obj fields) with
      | some l => l
      | none =>
          match (Json.obj fields).get "data" with
          | some (.obj nested) =>
              match firstNonEmptyListAt keys (.obj nested) with
              | some l => l
              | none => []
          | some (.arr xs) => xs
          | _ => []
  | _ => []

/-- Modelled from the claim's wording: the first non-empty list found under a
candidate key, written declaratively via `findSome?`. -/
def candidateList (keys : List String) (j : Json) : Option (List Json) :=
  keys.findSome? fun k =>
    match j.get k with
    | some (.arr xs) => if xs.isEmpty then none else some xs
    | _ => none

/-- Modelled from the claim's wording: (1) a list is returned itself;
(2) an object yields the first non-empty list under a candidate key at top
level; (3) otherwise, if `data` is an object, the first non-empty list under
a candidate key inside it; (4) otherwise `data` itself if it is a list;
(5) otherwise the empty list. -/
def specNormalize (keys : List String) (j : Json) : List Json :=
  match j with
  | .arr xs => xs
  | .obj _ =>
      match candidateList keys j with
      | some l => l
      | none =>
          match j.get "data" with
          | some (.obj nested) => (candidateList keys (.obj nested)).getD []
          | some (.arr xs) => xs
          | _ => []
  | _ => []

/-- Python `'; '.join(str(x) for x in v)`. -/
def joinStr (l : List Json) : String :=
  "; ".intercalate (l.map pyStr)

/-- The priority-key loop shared by every `_extract_message` copy in
`services.py`: for each of `message`/`msg`/`detail`/`error` in order, a
string value with non-blank strip is returned stripped, a non-empty list
value is returned joined with `"; "`. -/
def prioLoop : List String → List (String × Json) → Option String
  | [], _ => none
  | k :: rest, fields =>
      match lookupField fields k with
      | some (.str s) =>
          if (pyStrip s).isEmpty then prioLoop rest fields else some (pyStrip s)
      | some (.arr l) =>
          if l.isEmpty then prioLoop rest fields else some (joinStr l)
      | _ => prioLoop rest fields

/-- The final fallback loop of `_extract_message`: the first string value of
the object whose strip is non-blank, stripped. -/
def firstStrippedValue : List (String × Json) → Option String
  | [] => none
  | (_, .str s) :: rest =>
      if (pyStrip s).isEmpty then firstStrippedValue rest else some (pyStrip s)
  | _ :: rest => firstStrippedValue rest

/-- A successful association-list lookup returns a structurally smaller
value (well-foundedness of the `_extract_message` recursion). -/
theorem lookupField_sizeOf_lt (fields : List (String × Json)) (k : String) (v : Json)
    (h : lookupField fields k = some v) : sizeOf v < sizeOf fields := by
  induction fields with
  | nil => simp [lookupField] at h
  | cons p rest ih =>
      obtain ⟨k', v'⟩ := p
      simp only [lookupField] at h
      split at h
      · cases h
        simp only [List.cons.sizeOf_spec, Prod.mk.sizeOf_spec]
        omega
      · have := ih h
        simp only [List.cons.sizeOf_spec]
        omega

mutual

/-- Function `_extract_message` as defined inside `services.get_token` (nested
container keys `data`, `user`, `errors`). -/
def extractMessageGT : Json → Option String
  | .obj fields =>
      match prioLoop ["message", "msg", "detail", "error"] fields with
      | some s => some s
      | none =>
          match gtNestedLoop ["data", "user", "errors"] fields with
          | some s => some s
          | none => firstStrippedValue fields
  | _ => none
termination_by j => (sizeOf j, 0)

/-- The nested-container loop of `services.get_token`'s `_extract_message`:
recurse into each dict-valued container key and return the first non-empty
result. -/
def gtNestedLoop : List String → List (String × Json) → Option String
  | [], _ => none
  | k :: rest, fields =>
      match h : lookupField fields k with
      | some (.obj nested) =>
          match extractMessageGT (.obj nested) with
          | some m => if m.isEmpty then gtNestedLoop rest fields else some m
          | none => gtNestedLoop rest fields
      | _ => gtNestedLoop rest fields
termination_by ks fields => (sizeOf fields, ks.length + 1)
decreasing_by
  · exact Prod.Lex.left _ _ (by
      have := lookupField_sizeOf_lt fields k _ h
      simp only [Json.obj.sizeOf_spec] at this ⊢
      omega)
  · exact Prod.Lex.right _ (by simp only [List.length_cons]; omega)
  · exact Prod.Lex.right _ (by simp only [List.length_cons]; omega)

end

mutual

/-- Function `_extract_message` as defined inside `services.call_public_endpoint`
(and identically inside `services.call_protected_endpoint`): nested
container keys `data`, `errors`, `response`. -/
def extractMessagePub : Json → Option String
  | .obj fields =>
      match prioLoop ["message", "msg", "detail", "error"] fields with
      | some s => some s
      | none =>
          match pubNestedLoop ["data", "errors", "response"] fields with
          | some s => some s
          | none => firstStrippedValue fields
  | _ => none
termination_by j => (sizeOf j, 0)

/-- The nested-container loop of `services.call_public_endpoint`'s
`_extract_message`. -/
def pubNestedLoop : List String → List (String × Json) → Option String
  | [], _ => none
  | k :: rest, fields =>
      match h : lookupField fields k with
      | some (.obj nested) =>
          match extractMessagePub (.obj nested) with
          | some m => if m.isEmpty then pubNestedLoop rest fields else some m
          | none => pubNestedLoop rest fields
      | _ => pubNestedLoop rest fields
termination_by ks fields => (sizeOf fields, ks.length + 1)
decreasing_by
  · exact Prod.Lex.left _ _ (by
      have := lookupField_sizeOf_lt fields k _ h
      simp only [Json.obj.sizeOf_spec] at this ⊢
      omega)
  · exact Prod.Lex.right _ (by simp only [List.length_cons]; omega)
  · exact Prod.Lex.right _ (by simp only [List.length_cons]; omega)

end

/-- One probe of the policy's priority stage: a string value with non-blank
strip is taken stripped, a non-empty list value is taken joined. -/
def specPrioProbe (fields : List (String × Json)) (k : String) : Option String :=
  match lookupField fields k with
  | some (.str s) => if (pyStrip s).isEmpty then none else some (pyStrip s)
  | some (.arr l) => if l.isEmpty then none else some (joinStr l)
  | _ => none

/-- One probe of the policy's final fallback stage: a string value with
non-blank strip, stripped. -/
def specFallbackProbe (kv : String × Json) : Option String :=
  match kv.2 with
  | .str s => if (pyStrip s).isEmpty then none else some (pyStrip s)
  | _ => none

mutual

/-- Modelled from the shared extraction policy as the spec and claim state
it (amended to the code's trimming behaviour), parameterized by the
nested-container key list and written declaratively: priority keys first
(non-blank string stripped, non-empty list joined), then recursion into
dict-valued nested container keys, then the first non-blank string value. -/
def specPolicy (nk : List String) : Json → Option String
  | .obj fields =>
      (["message", "msg", "detail", "error"].findSome? (specPrioProbe fields)).orElse fun _ =>
      (nk.findSome? fun k => specNestedProbe nk fields k).orElse fun _ =>
      fields.findSome? specFallbackProbe
  | _ => none
termination_by j => (sizeOf j, 1)

/-- One probe of the policy's nested stage: recurse into a dict-valued
container key and keep a non-empty result. -/
def specNestedProbe (nk : List String) (fields : List (String × Json)) (k : String) :
    Option String :=
  match h : lookupField fields k with
  | some (.obj nested) =>
      match specPolicy nk (.obj nested) with
      | some m => if m.isEmpty then none else some m
      | none => none
  | _ => none
termination_by (1 + sizeOf fields, 0)
decreasing_by
  have h1 := lookupField_sizeOf_lt fields k _ h
  have h2 : sizeOf (Json.obj nested) = 1 + sizeOf nested := by simp
  exact Prod.Lex.left _ _ (by omega)

end

/-- Generic fallback message `f"API returned {status}"`. -/
def apiReturnedMsg (status : Nat) : String :=
  "API returned " ++ toString status

/-- User-facing message of `services.get_token` for an HTTP error status
with a JSON body: `RedeCoAPIError(_extract_message(data) or default)`. -/
def gtHttpErrorMsg (status : Nat) (d : Json) : String :=
  match extractMessageGT d with
  | some s => if s.isEmpty then apiReturnedMsg status else s
  | none => apiReturnedMsg status

/-- User-facing message of `services.call_public_endpoint` for an HTTP
error status with a JSON body. -/
def pubHttpErrorMsg (status : Nat) (d : Json) : String :=
  match extractMessagePub d with
  | some s => if s.isEmpty then apiReturnedMsg status else s
  | none => apiReturnedMsg status

/-- User-facing message of `services.post_reune_consultas_general` for a
generic `>= 400` status (after the dedicated 401/403/502/503/504 branches)
with a JSON body: a plain top-level `message`/`msg`/`detail`/`error`
Python `or` chain (`msg` stays `None` on a non-dict body), with no
trimming, list joining, recursion or string-field fallback. -/
def reuneTopChain (d : Json) : Json :=
  match d with
  | .obj _ => pyOrJ (pyOrJ (pyOrJ (d.getD "message") (d.getD "msg")) (d.getD "detail")) (d.getD "error")
  | _ => .null

/-- The raised message itself: the chain value if truthy, else the generic
status text (`str()` of the chain value, matching `str(RedeCoAPIError(msg))`). -/
def reuneErrMsg (status : Nat) (d : Json) : String :=
  if (reuneTopChain d).truthy then pyStr (reuneTopChain d)
  else "API REUNE retornó error " ++ toString status

/-- The JWT-shaped fallback of `services.get_token`: the first top-level
string value containing exactly two dots. -/
def firstJwtish : List (String × Json) → Option String
  | [] => none
  | (_, .str s) :: rest =>
      if s.toList.count '.' = 2 then some s else firstJwtish rest
  | _ :: rest => firstJwtish rest

/-- Token extraction of `services.get_token` lines 72-94: try top-level
`token` / `access` (Python `or`, so falsy values are skipped), then
`token_access` / `token` / `access` inside a dict-valued `data`, then the
same inside a dict-valued `user`, then the first top-level string value
with exactly two dots; the running `token` variable may end holding a falsy
value, which the caller treats as not found. -/
def extract_token (data : Json) : Json :=
  match data with
  | .obj fields =>
      let token := pyOrJ (data.getD "token") (data.getD "access")
      let token :=
        if token.truthy then token
        else
          match data.get "data" with
          | some (.obj nested) =>
              pyOrJ (pyOrJ ((Json.obj nested).getD "token_access") ((Json.obj nested).getD "token"))
                ((Json.obj nested).getD "access")
          | _ => token
      let token :=
        if token.truthy then token
        else
          match data.get "user" with
          | some (.obj user) =>
              pyOrJ (pyOrJ ((Json.obj user).getD "token_access") ((Json.obj user).getD "token"))
                ((Json.obj user).getD "access")
          | _ => token
      let token :=
        if token.truthy then token
        else
          match firstJwtish fields with
          | some s => .str s
          | none => token
      token
  | _ => .null

/-- Outcome of the HTTP request underlying a service call: a transport
failure, or a response with status code, optional parsed JSON body (`none`
when the body is not JSON) and raw text. -/
inductive HttpResult where
  | transportError (msg : String) : HttpResult
  | response (status : Nat) (body : Option Json) (text : String) : HttpResult

/-- Model of `services.get_token` over the abstract HTTP outcome: transport errors,
HTTP error statuses (message extracted from a JSON body when present) and
non-JSON bodies all fail; otherwise the extracted token is returned when
truthy and a descriptive error is raised when not. -/
def get_token (r : HttpResult) : Except String Json :=
  match r with
  | .transportError m => .error ("Error connecting to REDECO API: " ++ m)
  | .response status body text =>
      if 400 ≤ status then
        match body with
        | none => .error (apiReturnedMsg status ++ ": " ++ text)
        | some d => .error (gtHttpErrorMsg status d)
      else
        match body with
        | none => .error "API did not return JSON"
        | some d =>
            let token := extract_token d
            if token.truthy then .ok token
            else .error ("Unable to find token in API response: " ++ pyStr d)

/-- First truthy value in a list of JSON values (used to phrase the claim's
preference order declaratively). -/
def firstTruthy (xs : List Json) : Option Json :=
  xs.find? Json.truthy

/-- The claim's per-container preference `token_access` / `token` /
`access`. -/
def tokenUnder (j : Json) : Option Json :=
  firstTruthy [j.getD "token_access", j.getD "token", j.getD "access"]

/-- Modelled from the claim's wording: the token found, in order of
preference, at top-level `token` or `access`, then under a dict-valued
`data`, then under a dict-valued `user`, then — as a last resort — the
first top-level string value containing exactly two dots. -/
def specFindToken (d : Json) : Option Json :=
  match d with
  | .obj fields =>
      (firstTruthy [d.getD "token", d.getD "access"]).orElse fun _ =>
      (match d.get "data" with
       | some (.obj nested) => tokenUnder (.obj nested)
       | _ => none).orElse fun _ =>
      (match d.get "user" with
       | some (.obj user) => tokenUnder (.obj user)
       | _ => none).orElse fun _ =>
      (firstJwtish fields).map .str
  | _ => none

/-- A JSON-compatible payload value produced by the payload builder. -/
inductive PyVal where
  | int (n : Int) : PyVal
  | str (s : String) : PyVal
  | null : PyVal
deriving DecidableEq

/-- Raw complaint-form fields, as read from `request.POST` by
`views.create_queja` (a missing field is the empty string, matching
`request.POST.get(x) or ''`). -/
structure QuejaForm where
  no_trim : String
  quejas_num : String
  folio : String
  fecha_recepcion : String
  medio_id : String
  nivel_id : String
  producto : String
  causas_id : String
  pori : String
  estatus : String
  estado_id : String
  municipio : String
  localidad : String
  colonia : String
  cp : String
  tipo_persona : String
  sexo : String
  edad : String
  fecha_resolucion : String
  fecha_notificacion : String
  respuesta : String
  num_penal : String
  penalizacion_id : String
deriving DecidableEq

/-- Field collection of `views.create_queja` lines 561-586: every field is
stripped, PORI is additionally uppercased, `quejas_num` defaults to `'1'`
when missing/empty before the strip, and a `colonia` whose lowercase is
`'undefined'` is replaced by the empty string. -/
def processForm (f : QuejaForm) : QuejaForm :=
  let colonia0 := pyStrip f.colonia
  { no_trim := pyStrip f.no_trim
    quejas_num := pyStrip (if f.quejas_num = "" then "1" else f.quejas_num)
    folio := pyStrip f.folio
    fecha_recepcion := pyStrip f.fecha_recepcion
    medio_id := pyStrip f.medio_id
    nivel_id := pyStrip f.nivel_id
    producto := pyStrip f.producto
    causas_id := pyStrip f.causas_id
    pori := pyUpper (pyStrip f.pori)
    estatus := pyStrip f.estatus
    estado_id := pyStrip f.estado_id
    municipio := pyStrip f.municipio
    localidad := pyStrip f.localidad
    colonia := if pyLower colonia0 = "undefined" then "" else colonia0
    cp := pyStrip f.cp
    tipo_persona := pyStrip f.tipo_persona
    sexo := pyStrip f.sexo
    edad := pyStrip f.edad
    fecha_resolucion := pyStrip f.fecha_resolucion
    fecha_notificacion := pyStrip f.fecha_notificacion
    respuesta := pyStrip f.respuesta
    num_penal := pyStrip f.num_penal
    penalizacion_id := pyStrip f.penalizacion_id }

/-- The `all([...])` required-field check of `views.create_queja` line 616. -/
def requiredOk (g : QuejaForm) : Bool :=
  !g.no_trim.isEmpty && !g.folio.isEmpty && !g.fecha_recepcion.isEmpty
  && !g.medio_id.isEmpty && !g.nivel_id.isEmpty && !g.producto.isEmpty
  && !g.causas_id.isEmpty && !g.pori.isEmpty && !g.estatus.isEmpty
  && !g.estado_id.isEmpty && !g.municipio.isEmpty && !g.colonia.isEmpty
  && !g.cp.isEmpty && !g.tipo_persona.isEmpty

/-- Page-level error messages of `views.create_queja`. -/
def requiredMsg : String :=
  "Todos los campos marcados como requeridos deben ser completados."

/-- PORI enum error message. -/
def poriMsg : String :=
  "PORI debe ser \"SI\" o \"NO\" (mayúsculas)."

/-- Status enum error message. -/
def statusMsg : String :=
  "Estado debe ser 1 (Pendiente) o 2 (Concluido)."

/-- Missing-token error message. -/
def tokenMsg : String :=
  "Token no disponible. Genera un token desde la página principal."

/-- Coercion `int(s) if s.isdigit() else s`: the lenient form applied to
most payload fields. -/
def coerceDigit (s : String) : PyVal :=
  if isdigitStr s then .int (Int.ofNat (strDigitsNat s)) else .str s

/-- A formatted date as a payload value (`None` becomes JSON null). -/
def optToVal : Option String → PyVal
  | some s => .str s
  | none => .null

/-- Outcome of validation plus payload construction in
`views.create_queja`'s POST branch: a page-level error message, an
unhandled Python exception (from `int(no_trim)`), or the payload handed to
`services.create_queja`. -/
inductive BuildStep where
  | pageError (msg : String) : BuildStep
  | crash (msg : String) : BuildStep
  | payload (p : List (String × PyVal)) : BuildStep
deriving DecidableEq

/-- The required payload entries of `views.create_queja` lines 640-656,
given the already-converted `QuejasNoTrim` value. -/
def basePayload (g : QuejaForm) (n : Int) : List (String × PyVal) :=
  [("QuejasNoTrim", .int n),
   ("QuejasNum", .int (if isdigitStr g.quejas_num then Int.ofNat (strDigitsNat g.quejas_num) else 1)),
   ("QuejasFolio", .str g.folio),
   ("QuejasFecRecepcion", optToVal (fmt_date g.fecha_recepcion)),
   ("MedioId", coerceDigit g.medio_id),
   ("NivelATId", coerceDigit g.nivel_id),
   ("product", .str g.producto),
   ("CausasId", .str g.causas_id),
   ("QuejasPORI", .str g.pori),
   ("QuejasEstatus", coerceDigit g.estatus),
   ("EstadosId", coerceDigit g.estado_id),
   ("QuejasMunId", coerceDigit g.municipio),
   ("QuejasColId", coerceDigit g.colonia),
   ("QuejasCP", coerceDigit g.cp),
   ("QuejasTipoPersona", coerceDigit g.tipo_persona)]

/-- The optional payload entries of `views.create_queja` lines 658-674, in
assignment order. -/
def optionalPayload (g : QuejaForm) : List (String × PyVal) :=
  (if ¬g.localidad.isEmpty ∧ isdigitStr g.localidad then
    [("QuejasLocId", PyVal.int (Int.ofNat (strDigitsNat g.localidad)))] else [])
  ++ (if ¬g.sexo.isEmpty then [("QuejasSexo", PyVal.str g.sexo)] else [])
  ++ (if ¬g.edad.isEmpty ∧ isdigitStr g.edad then
    [("QuejasEdad", PyVal.int (Int.ofNat (strDigitsNat g.edad)))] else [])
  ++ (if ¬g.fecha_resolucion.isEmpty then
    [("QuejasFecResolucion", optToVal (fmt_date g.fecha_resolucion))] else [])
  ++ (if ¬g.fecha_notificacion.isEmpty then
    [("QuejasFecNotificacion", optToVal (fmt_date g.fecha_notificacion))] else [])
  ++ (if ¬g.respuesta.isEmpty ∧ isdigitStr g.respuesta then
    [("QuejasRespuesta", PyVal.int (Int.ofNat (strDigitsNat g.respuesta)))] else [])
  ++ (if ¬g.num_penal.isEmpty ∧ isdigitStr g.num_penal ∧ 0 < strDigitsNat g.num_penal then
    [("QuejasNumPenal", PyVal.int (Int.ofNat (strDigitsNat g.num_penal)))] else [])
  ++ (if ¬g.penalizacion_id.isEmpty ∧ isdigitStr g.penalizacion_id then
    [("PenalizacionId", PyVal.int (Int.ofNat (strDigitsNat g.penalizacion_id)))] else [])

/-- Validation and payload construction of `views.create_queja` lines
615-674, taken on the already-collected fields: required-field check, PORI
and status enum checks, token check, then the payload dict — whose very
first entry evaluates `int(no_trim)` with no `isdigit` guard, so a
non-numeric `no_trim` raises an uncaught `ValueError` (modelled as
`.crash`). -/
def validateAndBuild (hasToken : Bool) (g : QuejaForm) : BuildStep :=
  if ¬(requiredOk g) then .pageError requiredMsg
  else if ¬(g.pori = "SI" ∨ g.pori = "NO") then .pageError poriMsg
  else if ¬(g.estatus = "1" ∨ g.estatus = "2") then .pageError statusMsg
  else if ¬hasToken then .pageError tokenMsg
  else
    match pyInt g.no_trim with
    | .error m => .crash m
    | .ok n => .payload (basePayload g n ++ optionalPayload g)

/-- A remote API call performed by a view. -/
inductive RemoteCall where
  | publicGet (path : String) : RemoteCall
  | protectedGet (path : String) : RemoteCall
  | postQueja (payload : List (String × PyVal)) : RemoteCall
deriving DecidableEq

/-- Catalog-loading calls performed unconditionally at the top of
`views.create_queja` on every request, before any POST validation runs
(the protected products call only when a session token is present). -/
def catalogCalls (hasToken : Bool) : List RemoteCall :=
  [.publicGet "catalogos/medio-recepcion",
   .publicGet "catalogos/niveles-atencion",
   .publicGet "sepomex/estados/"]
  ++ (if hasToken then [RemoteCall.protectedGet "catalogos/products-list"] else [])

/-- All remote calls attempted by a POST to `views.create_queja`: the
catalog loads first, then the complaint submission exactly when validation
and payload construction succeeded. -/
def createQuejaPostCalls (hasToken : Bool) (g : QuejaForm) : List RemoteCall :=
  catalogCalls hasToken
  ++ (match validateAndBuild hasToken g with
      | .payload p => [RemoteCall.postQueja p]
      | _ => [])

/-- Whether a built payload contains a key. -/
def hasKeyP (p : List (String × PyVal)) (k : String) : Bool :=
  p.any fun kv => kv.1 = k

/-- The `Cliente` model of `models.py` (audit timestamps omitted: they are
set by the framework and play no role in validation). -/
structure Cliente where
  nombre : String
  rfc : String
  tipo_persona : Int
  estado_id : Int
  estado_nombre : String
  codigo_postal : String
  municipio_id : Option Int
  municipio_nombre : String
  colonia_id : Option Int
  colonia_nombre : String
  localidad : String
  sexo : Option String
  edad : Option Int
deriving DecidableEq

/-- Python truthiness of the model's optional `sexo` (None and the empty
string are falsy). -/
def sexoTruthy : Option String → Bool
  | none => false
  | some s => !s.isEmpty

/-- Python truthiness of the model's optional `edad` (None and 0 are
falsy). -/
def edadTruthy : Option Int → Bool
  | none => false
  | some e => e != 0

/-- Validation `models.Cliente.clean`: a persona moral (tipo 2) must not carry a
truthy `sexo` or `edad`; an `edad`, when not None, must lie in [0, 999];
a non-empty `codigo_postal` must be exactly 5 digits. The first failing
check raises. -/
def Cliente.clean (c : Cliente) : Option String :=
  if c.tipo_persona = 2 ∧ (sexoTruthy c.sexo ∨ edadTruthy c.edad) then
    some "Las personas morales no pueden tener sexo o edad."
  else if (match c.edad with | some e => decide (e < 0 ∨ e > 999) | none => false) then
    some "La edad debe estar entre 0 y 999."
  else if ¬c.codigo_postal.isEmpty ∧ (c.codigo_postal.length ≠ 5 ∨ ¬isdigitStr c.codigo_postal) then
    some "El código postal debe tener 5 dígitos."
  else none

/-- The per-field validation run by Django's `full_clean` before
`Cliente.clean`, as induced by the field declarations of `models.py`
(required non-blank fields, `max_length`, and `choices`); modelled from
the spec, since the framework's validator is not part of this repository's
sources. -/
def Cliente.fieldsValid (c : Cliente) : Bool :=
  !c.nombre.isEmpty && c.nombre.length ≤ 255
  && !c.rfc.isEmpty && c.rfc.length ≤ 13
  && (c.tipo_persona = 1 || c.tipo_persona = 2)
  && c.estado_nombre.length ≤ 100
  && !c.codigo_postal.isEmpty && c.codigo_postal.length ≤ 5
  && c.municipio_nombre.length ≤ 100
  && c.colonia_nombre.length ≤ 100
  && c.localidad.length ≤ 8
  && (match c.sexo with | none => true | some s => s = "H" || s = "M")

/-- Django `cliente.full_clean()`: field validation, then `Cliente.clean`
(uniqueness is checked separately by the view before construction). -/
def Cliente.fullClean (c : Cliente) : Option String :=
  if ¬c.fieldsValid then some "field validation error"
  else c.clean

/-- Raw client-form fields, as read from `request.POST` by
`views.clientes_create`. -/
structure ClienteForm where
  nombre : String
  rfc : String
  tipo_persona : String
  estado_id : String
  codigo_postal : String
  municipio_id : String
  colonia_id : String
  localidad : String
  sexo : String
  edad : String
  estado_nombre : String
  municipio_nombre : String
  colonia_nombre : String
deriving DecidableEq

/-- Optional integer conversion `int(s) if s else None` (raises on a
non-numeric non-empty string). -/
def pyIntOpt (s : String) : Except String (Option Int) :=
  if s.isEmpty then .ok none
  else (pyInt s).map some

/-- The POST branch of `views.clientes_create` over the current database
(list of saved records): strip fields (RFC also uppercased), require
`nombre`/`rfc`/`tipo_persona`/`estado_id`/`codigo_postal` non-empty, reject
an already-used RFC, then build the record (integer conversions may raise,
caught by the surrounding `except`), run `full_clean` and save. Returns the
created record or the page-level error message. -/
def clientes_create_post (db : List Cliente) (f : ClienteForm) : Except String Cliente :=
  let nombre := pyStrip f.nombre
  let rfc := pyUpper (pyStrip f.rfc)
  let tipo_persona := pyStrip f.tipo_persona
  let estado_id := pyStrip f.estado_id
  let codigo_postal := pyStrip f.codigo_postal
  let municipio_id := pyStrip f.municipio_id
  let colonia_id := pyStrip f.colonia_id
  let localidad := pyStrip f.localidad
  let sexo := pyStrip f.sexo
  let edad := pyStrip f.edad
  let estado_nombre := pyStrip f.estado_nombre
  let municipio_nombre := pyStrip f.municipio_nombre
  let colonia_nombre := pyStrip f.colonia_nombre
  if ¬(!nombre.isEmpty && !rfc.isEmpty && !tipo_persona.isEmpty
       && !estado_id.isEmpty && !codigo_postal.isEmpty) then
    .error "Los campos marcados con * son obligatorios."
  else if db.any (fun c => c.rfc = rfc) then
    .error ("Ya existe un cliente con el RFC " ++ rfc ++ ".")
  else
    match pyInt tipo_persona with
    | .error e => .error ("Error al crear cliente: " ++ e)
    | .ok tp =>
      match pyInt estado_id with
      | .error e => .error ("Error al crear cliente: " ++ e)
      | .ok eid =>
        match pyIntOpt municipio_id with
        | .error e => .error ("Error al crear cliente: " ++ e)
        | .ok mid =>
          match pyIntOpt colonia_id with
          | .error e => .error ("Error al crear cliente: " ++ e)
          | .ok cid =>
            match pyIntOpt edad with
            | .error e => .error ("Error al crear cliente: " ++ e)
            | .ok ed =>
              let c : Cliente :=
                { nombre := nombre
                  rfc := rfc
                  tipo_persona := tp
                  estado_id := eid
                  estado_nombre := estado_nombre
                  codigo_postal := codigo_postal
                  municipio_id := mid
                  municipio_nombre := municipio_nombre
                  colonia_id := cid
                  colonia_nombre := colonia_nombre
                  localidad := localidad
                  sexo := if sexo.isEmpty then none else some sexo
                  edad := ed }
              match c.fullClean with
              | some m => .error ("Error al crear cliente: " ++ m)
              | none => .ok c

/-- The explicit candidate-key loop agrees with its declarative
`findSome?` description. -/
theorem firstNonEmptyListAt_eq_candidateList (keys : List String) (j : Json) :
    firstNonEmptyListAt keys j = candidateList keys j := by
  induction keys with
  | nil => rfl
  | cons k rest ih =>
      simp only [firstNonEmptyListAt, candidateList, List.findSome?_cons]
      cases hv : j.get k with
      | none =>
          simpa [candidateList] using ih
      | some v =>
          cases v with
          | arr xs =>
              cases xs with
              | nil => simpa [candidateList] using ih
              | cons x tl => simp
          | null => simpa [candidateList] using ih
          | bool b => simpa [candidateList] using ih
          | num n => simpa [candidateList] using ih
          | str s => simpa [candidateList] using ih
          | obj fs => simpa [candidateList] using ih

/-- Claim C1: for every JSON value and every ordered candidate key list,
the catalog response normalization returns the value itself if it is a
list; otherwise, on an object, the first non-empty list under a candidate
key at top level; otherwise, if `data` is an object, the first non-empty
list under a candidate key inside it; otherwise `data` itself when it is
directly a list; otherwise the empty list — it is a total function and
never fails on any input shape. -/
theorem normalize_response_matches_spec (keys : List String) (j : Json) :
    normalize_response keys j = specNormalize keys j := by
  cases j with
  | obj fields =>
      simp only [normalize_response, specNormalize,
        firstNonEmptyListAt_eq_candidateList]
      cases candidateList keys (.obj fields) with
      | some l => rfl
      | none =>
          cases hd : (Json.obj fields).get "data" with
          | none => rfl
          | some v =>
              cases v with
              | obj nested =>
                  simp only [Option.getD]
                  cases candidateList keys (.obj nested) <;> rfl
              | null => rfl
              | bool b => rfl
              | num n => rfl
              | str s => rfl
              | arr xs => rfl
  | null => rfl
  | bool b => rfl
  | num n => rfl
  | str s => rfl
  | arr xs => rfl

/-- Failing the required-field check yields the missing-required-fields
page error. -/
theorem validateAndBuild_required (tk : Bool) (g : QuejaForm)
    (h : requiredOk g = false) :
    validateAndBuild tk g = .pageError requiredMsg := by
  rw [validateAndBuild, if_pos (by simp [h])]

/-- With required fields present, an out-of-enum PORI yields the PORI page
error. -/
theorem validateAndBuild_pori (tk : Bool) (g : QuejaForm)
    (hreq : requiredOk g = true) (hp : ¬(g.pori = "SI" ∨ g.pori = "NO")) :
    validateAndBuild tk g = .pageError poriMsg := by
  rw [validateAndBuild, if_neg (by simp [hreq]), if_pos hp]

/-- With required fields present and PORI valid, an out-of-enum status
yields the status page error. -/
theorem validateAndBuild_status (tk : Bool) (g : QuejaForm)
    (hreq : requiredOk g = true) (hp : g.pori = "SI" ∨ g.pori = "NO")
    (hs : ¬(g.estatus = "1" ∨ g.estatus = "2")) :
    validateAndBuild tk g = .pageError statusMsg := by
  rw [validateAndBuild, if_neg (by simp [hreq]), if_neg (by tauto), if_pos hs]

/-- With all checks passed, the outcome is the `int(no_trim)` conversion
followed by the payload. -/
theorem validateAndBuild_passed (g : QuejaForm)
    (hreq : requiredOk g = true) (hp : g.pori = "SI" ∨ g.pori = "NO")
    (hs : g.estatus = "1" ∨ g.estatus = "2") :
    validateAndBuild true g =
      (match pyInt g.no_trim with
       | .error m => .crash m
       | .ok n => .payload (basePayload g n ++ optionalPayload g)) := by
  rw [validateAndBuild, if_neg (by simp [hreq]), if_neg (by tauto), if_neg (by tauto),
    if_neg (by simp)]

/-- A page-level validation error means the complaint submission call is
never attempted (only the unconditional catalog loads run). -/
theorem pageError_no_submission (tk : Bool) (g : QuejaForm) (msg : String)
    (h : validateAndBuild tk g = .pageError msg) (p : List (String × PyVal)) :
    RemoteCall.postQueja p ∉ createQuejaPostCalls tk g := by
  intro hp
  rw [createQuejaPostCalls, h] at hp
  rcases List.mem_append.1 hp with hc | hc
  · rw [catalogCalls] at hc
    rcases List.mem_append.1 hc with hc | hc
    · simp at hc
    · cases tk <;> simp at hc
  · simp at hc

/-- A fully-populated, otherwise valid complaint form used as the base of
the concrete examples. -/
def quejaFormBase : QuejaForm :=
  { no_trim := "1", quejas_num := "1", folio := "F-001", fecha_recepcion := "2024-01-15",
    medio_id := "1", nivel_id := "1", producto := "PROD", causas_id := "9",
    pori := "SI", estatus := "1", estado_id := "1", municipio := "2", localidad := "",
    colonia := "3", cp := "12345", tipo_persona := "1", sexo := "", edad := "",
    fecha_resolucion := "", fecha_notificacion := "", respuesta := "", num_penal := "",
    penalizacion_id := "" }

/-- The complaint form with a non-numeric trimester number. -/
def quejaFormC2 : QuejaForm :=
  { quejaFormBase with no_trim := "abc" }

/-- Claim C2 (code bug): a form whose fields pass the required-field and
enum checks but whose trimester number is not numeric does not produce a
payload or a page-level error — `int(no_trim)` at `views.py` line 641 has
no `isdigit` guard and raises an uncaught `ValueError` (every other numeric
field on lines 642-655 is guarded by `isdigit`). -/
theorem create_queja_no_trim_crash :
    requiredOk (processForm quejaFormC2) = true ∧
    (processForm quejaFormC2).pori = "SI" ∧
    (processForm quejaFormC2).estatus = "1" ∧
    validateAndBuild true (processForm quejaFormC2) =
      .crash "invalid literal for int() with base 10: \x27abc\x27" :=
  ⟨rfl, rfl, rfl, rfl⟩

/-- The complaint form with status `"3"`. -/
def quejaFormC3 : QuejaForm :=
  { quejaFormBase with estatus := "3" }

/-- Claim C3 counterexample: a POST with `estatus = "3"` is rejected with
the status-enum error, yet the view has already attempted remote calls
(the unconditional catalog loads), so "attempts no remote call" is false
at this input. -/
theorem create_queja_estatus3_calls_remote :
    validateAndBuild true (processForm quejaFormC3) = .pageError statusMsg ∧
    createQuejaPostCalls true (processForm quejaFormC3) =
      [.publicGet "catalogos/medio-recepcion", .publicGet "catalogos/niveles-atencion",
       .publicGet "sepomex/estados/", .protectedGet "catalogos/products-list"] ∧
    createQuejaPostCalls true (processForm quejaFormC3) ≠ [] :=
  ⟨rfl, rfl, by decide⟩

/-- Claim C3 (amended): an input whose status is not `"1"`/`"2"` (with
required fields present and PORI valid) is rejected with the status-enum
error, an input missing a required field is rejected with the
missing-required-fields error, and in every page-level rejection the
complaint-submission remote call is never attempted — only the
catalog-loading calls, which the view performs on every request before
validation, occur. -/
theorem create_queja_rejects_before_submission (f : QuejaForm) (tk : Bool) :
    (requiredOk (processForm f) = true →
      ((processForm f).pori = "SI" ∨ (processForm f).pori = "NO") →
      ¬((processForm f).estatus = "1" ∨ (processForm f).estatus = "2") →
      validateAndBuild tk (processForm f) = .pageError statusMsg) ∧
    (requiredOk (processForm f) = false →
      validateAndBuild tk (processForm f) = .pageError requiredMsg) ∧
    (∀ msg, validateAndBuild tk (processForm f) = .pageError msg →
      ∀ p, RemoteCall.postQueja p ∉ createQuejaPostCalls tk (processForm f)) :=
  ⟨fun hreq hp hs => validateAndBuild_status tk (processForm f) hreq hp hs,
   fun hreq => validateAndBuild_required tk (processForm f) hreq,
   fun msg h p => pageError_no_submission tk (processForm f) msg h p⟩

/-- Claim C3 witness: the amended theorem applied to the concrete
`estatus = "3"` form. -/
theorem create_queja_rejects_before_submission_witness :
    validateAndBuild true (processForm quejaFormC3) = .pageError statusMsg :=
  (create_queja_rejects_before_submission quejaFormC3 true).1 rfl (Or.inl rfl) (by decide)

/-- Claim C10: a neighborhood value whose lowercased strip is
`"undefined"` is blanked before validation, so the submission always fails
the required-field check and the complaint is never sent to the remote
API. -/
theorem create_queja_colonia_undefined (f : QuejaForm) (tk : Bool)
    (h : pyLower (pyStrip f.colonia) = "undefined") :
    (processForm f).colonia = "" ∧
    validateAndBuild tk (processForm f) = .pageError requiredMsg ∧
    ∀ p, RemoteCall.postQueja p ∉ createQuejaPostCalls tk (processForm f) := by
  have hcol : (processForm f).colonia = "" := by
    simp only [processForm, h, if_pos]
  have hreq : requiredOk (processForm f) = false := by
    simp [requiredOk, hcol, show ("".isEmpty) = true from rfl]
  exact ⟨hcol, validateAndBuild_required tk (processForm f) hreq,
    fun p => pageError_no_submission tk (processForm f) requiredMsg
      (validateAndBuild_required tk (processForm f) hreq) p⟩

/-- The complaint form whose neighborhood is the JavaScript artifact
string. -/
def quejaFormC10 : QuejaForm :=
  { quejaFormBase with colonia := " UnDefined " }

/-- Claim C10 witness: the theorem applied to a mixed-case concrete
`colonia`. -/
theorem create_queja_colonia_undefined_witness :
    (processForm quejaFormC10).colonia = "" ∧
    validateAndBuild true (processForm quejaFormC10) = .pageError requiredMsg :=
  ⟨(create_queja_colonia_undefined quejaFormC10 true rfl).1,
   (create_queja_colonia_undefined quejaFormC10 true rfl).2.1⟩

/-- With all field checks passed but no session token, the outcome is the
token page error. -/
theorem validateAndBuild_token (g : QuejaForm)
    (hreq : requiredOk g = true) (hp : g.pori = "SI" ∨ g.pori = "NO")
    (hs : g.estatus = "1" ∨ g.estatus = "2") :
    validateAndBuild false g = .pageError tokenMsg := by
  rw [validateAndBuild, if_neg (by simp [hreq]), if_neg (by tauto), if_neg (by tauto),
    if_pos (by simp)]

/-- Once PORI and status are both in range, the outcome is never one of the
two enum page errors. -/
theorem validateAndBuild_enum_ok_not_enum_error (tk : Bool) (g : QuejaForm)
    (hreq : requiredOk g = true) (hp : g.pori = "SI" ∨ g.pori = "NO")
    (hs : g.estatus = "1" ∨ g.estatus = "2") (m : String)
    (hm : m = poriMsg ∨ m = statusMsg) :
    validateAndBuild tk g ≠ .pageError m := by
  cases tk with
  | false =>
      rw [validateAndBuild_token g hreq hp hs]
      intro hcontra
      rcases hm with hm | hm <;> rw [hm] at hcontra <;>
        exact absurd (BuildStep.pageError.inj hcontra) (by decide)
  | true =>
      rw [validateAndBuild_passed g hreq hp hs]
      cases pyInt g.no_trim <;> simp

/-- Claim C6: with all required fields present, the PORI field is accepted
case-insensitively (the collected value is the uppercased strip of the raw
value), the PORI enum error occurs exactly when the uppercased PORI is
neither `"SI"` nor `"NO"`, and the status enum error occurs exactly when
PORI is valid and the status is neither `"1"` nor `"2"`. -/
theorem create_queja_pori_case_insensitive (f : QuejaForm) (tk : Bool)
    (hreq : requiredOk (processForm f) = true) :
    (processForm f).pori = pyUpper (pyStrip f.pori) ∧
    (validateAndBuild tk (processForm f) = .pageError poriMsg ↔
      ¬(pyUpper (pyStrip f.pori) = "SI" ∨ pyUpper (pyStrip f.pori) = "NO")) ∧
    (validateAndBuild tk (processForm f) = .pageError statusMsg ↔
      ((pyUpper (pyStrip f.pori) = "SI" ∨ pyUpper (pyStrip f.pori) = "NO") ∧
        ¬((processForm f).estatus = "1" ∨ (processForm f).estatus = "2"))) := by
  have hpe : (processForm f).pori = pyUpper (pyStrip f.pori) := rfl
  refine ⟨rfl, ⟨?_, ?_⟩, ⟨?_, ?_⟩⟩
  · intro h
    by_contra hp
    rw [← hpe] at hp
    by_cases hs : (processForm f).estatus = "1" ∨ (processForm f).estatus = "2"
    · exact validateAndBuild_enum_ok_not_enum_error tk (processForm f) hreq hp hs
        poriMsg (Or.inl rfl) h
    · rw [validateAndBuild_status tk (processForm f) hreq hp hs] at h
      exact absurd (BuildStep.pageError.inj h) (by decide)
  · intro hp
    rw [← hpe] at hp
    exact validateAndBuild_pori tk (processForm f) hreq hp
  · intro h
    by_cases hp : (processForm f).pori = "SI" ∨ (processForm f).pori = "NO"
    · by_cases hs : (processForm f).estatus = "1" ∨ (processForm f).estatus = "2"
      · exact absurd h (validateAndBuild_enum_ok_not_enum_error tk (processForm f)
          hreq hp hs statusMsg (Or.inr rfl))
      · exact ⟨by rw [← hpe]; exact hp, hs⟩
    · rw [validateAndBuild_pori tk (processForm f) hreq hp] at h
      exact absurd (BuildStep.pageError.inj h) (by decide)
  · intro ⟨hp, hs⟩
    rw [← hpe] at hp
    exact validateAndBuild_status tk (processForm f) hreq hp hs

/-- The complaint form with lowercase PORI. -/
def quejaFormC6 : QuejaForm :=
  { quejaFormBase with pori := "si", estatus := "2" }

/-- Claim C6 witness: the theorem applied to the concrete lowercase-PORI
form — `"si"` is uppercased to `"SI"` and neither enum error occurs. -/
theorem create_queja_pori_case_insensitive_witness :
    (processForm quejaFormC6).pori = "SI" ∧
    ¬(validateAndBuild true (processForm quejaFormC6) = .pageError poriMsg) :=
  ⟨(create_queja_pori_case_insensitive quejaFormC6 true rfl).1.trans (by decide),
   fun h => ((create_queja_pori_case_insensitive quejaFormC6 true rfl).2.1.1 h) (by decide)⟩

/-- Key membership distributes over payload concatenation. -/
theorem hasKeyP_append (a b : List (String × PyVal)) (k : String) :
    hasKeyP (a ++ b) k = (hasKeyP a k || hasKeyP b k) := by
  simp [hasKeyP, List.any_append]

/-- A conditional singleton entry with a different key never contributes
the key. -/
theorem hasKeyP_if_ne (c : Prop) [Decidable c] (k0 : String) (v : PyVal) (k : String)
    (hk : ¬(k0 = k)) : hasKeyP (if c then [(k0, v)] else []) k = false := by
  split <;> simp [hasKeyP, hk]

/-- A conditional singleton entry contributes its own key exactly when its
condition holds. -/
theorem hasKeyP_if_eq (c : Prop) [Decidable c] (k0 : String) (v : PyVal) :
    hasKeyP (if c then [(k0, v)] else []) k0 = decide c := by
  split <;> simp_all [hasKeyP]

/-- The complaint form with penalty number `"0"`. -/
def quejaFormC7 : QuejaForm :=
  { quejaFormBase with num_penal := "0" }

/-- Claim C7 counterexample: the penalty-number field `"0"` is trimmed
non-empty and all-digits, yet the built payload carries no
`QuejasNumPenal` key — the code additionally requires `int(num_penal) > 0`. -/
theorem create_queja_num_penal_zero_dropped :
    pyStrip quejaFormC7.num_penal = "0" ∧
    isdigitStr (pyStrip quejaFormC7.num_penal) = true ∧
    validateAndBuild true (processForm quejaFormC7) =
      .payload (basePayload (processForm quejaFormC7) 1 ++ optionalPayload (processForm quejaFormC7)) ∧
    hasKeyP (basePayload (processForm quejaFormC7) 1 ++ optionalPayload (processForm quejaFormC7))
      "QuejasNumPenal" = false :=
  ⟨rfl, rfl, rfl, by decide⟩

/-- Claim C7 (amended): whenever the POST builds a payload, each optional
field appears as a key exactly when its trimmed value is non-empty and,
for the numeric ones, all-digits — except the penalty number, which
additionally must be positive; empty optional fields are omitted entirely. -/
theorem create_queja_optional_fields (f : QuejaForm) (tk : Bool) (p : List (String × PyVal))
    (h : validateAndBuild tk (processForm f) = .payload p) :
    (hasKeyP p "QuejasLocId" = true ↔
      (¬(pyStrip f.localidad).isEmpty ∧ isdigitStr (pyStrip f.localidad) = true)) ∧
    (hasKeyP p "QuejasSexo" = true ↔ ¬(pyStrip f.sexo).isEmpty) ∧
    (hasKeyP p "QuejasEdad" = true ↔
      (¬(pyStrip f.edad).isEmpty ∧ isdigitStr (pyStrip f.edad) = true)) ∧
    (hasKeyP p "QuejasFecResolucion" = true ↔ ¬(pyStrip f.fecha_resolucion).isEmpty) ∧
    (hasKeyP p "QuejasFecNotificacion" = true ↔ ¬(pyStrip f.fecha_notificacion).isEmpty) ∧
    (hasKeyP p "QuejasRespuesta" = true ↔
      (¬(pyStrip f.respuesta).isEmpty ∧ isdigitStr (pyStrip f.respuesta) = true)) ∧
    (hasKeyP p "QuejasNumPenal" = true ↔
      (¬(pyStrip f.num_penal).isEmpty ∧ isdigitStr (pyStrip f.num_penal) = true ∧
        0 < strDigitsNat (pyStrip f.num_penal))) ∧
    (hasKeyP p "PenalizacionId" = true ↔
      (¬(pyStrip f.penalizacion_id).isEmpty ∧ isdigitStr (pyStrip f.penalizacion_id) = true)) := by
  rw [validateAndBuild] at h
  split at h
  · exact absurd h (by simp)
  split at h
  · exact absurd h (by simp)
  split at h
  · exact absurd h (by simp)
  split at h
  · exact absurd h (by simp)
  split at h
  · exact absurd h (by simp)
  have hpeq := BuildStep.payload.inj h
  subst hpeq
  refine ⟨?_, ?_, ?_, ?_, ?_, ?_, ?_, ?_⟩ <;>
    (rw [hasKeyP_append];
     simp only [optionalPayload, hasKeyP_append, hasKeyP_if_eq, hasKeyP_if_ne];
     simp [basePayload, hasKeyP];
     try rfl)

/-- The complaint form with a sex value present. -/
def quejaFormC7w : QuejaForm :=
  { quejaFormBase with sexo := "H" }

/-- Claim C7 witness: the amended theorem applied to the concrete form with
`sexo = "H"` shows the optional sex key present. -/
theorem create_queja_optional_fields_witness :
    hasKeyP (basePayload (processForm quejaFormC7w) 1 ++ optionalPayload (processForm quejaFormC7w))
      "QuejasSexo" = true :=
  (create_queja_optional_fields quejaFormC7w true
    (basePayload (processForm quejaFormC7w) 1 ++ optionalPayload (processForm quejaFormC7w))
    rfl).2.1.mpr (by decide)

/-- A digit character produced by `Nat.digitChar` below base 10 is a
decimal digit. -/
theorem digitChar_isDigit (m : Nat) (h : m < 10) : (Nat.digitChar m).isDigit = true := by
  interval_cases m <;> decide

/-- Every character a decimal `Nat.toDigitsCore` rendering adds is a
decimal digit. -/
theorem mem_toDigitsCore_isDigit :
    ∀ (f n : Nat) (l : List Char) (c : Char),
      c ∈ Nat.toDigitsCore 10 f n l → c ∈ l ∨ c.isDigit = true := by
  intro f
  induction f with
  | zero => intro n l c hc; exact Or.inl hc
  | succ f ih =>
      intro n l c hc
      simp only [Nat.toDigitsCore] at hc
      split at hc
      · rcases List.mem_cons.1 hc with h | h
        · exact Or.inr (h ▸ digitChar_isDigit _ (Nat.mod_lt _ (by omega)))
        · exact Or.inl h
      · rcases ih (n / 10) (Nat.digitChar (n % 10) :: l) c hc with h | h
        · rcases List.mem_cons.1 h with h' | h'
          · exact Or.inr (h' ▸ digitChar_isDigit _ (Nat.mod_lt _ (by omega)))
          · exact Or.inl h'
        · exact Or.inr h

/-- The decimal rendering of a natural number never contains a dash. -/
theorem no_dash_natRepr (n : Nat) : '-' ∉ (Nat.repr n).toList := by
  intro hmem
  rcases mem_toDigitsCore_isDigit (n + 1) n [] '-' hmem with h | h
  · exact absurd h (List.not_mem_nil _)
  · exact absurd h (by decide)

/-- Two-digit padding output never contains a dash. -/
theorem no_dash_pad2 (n : Nat) : '-' ∉ (pad2 n).toList := by
  rw [pad2]
  split
  · intro hmem
    rcases List.mem_append.1 hmem with h | h
    · exact absurd h (by decide)
    · exact no_dash_natRepr n h
  · exact no_dash_natRepr n

/-- Four-digit padding output never contains a dash. -/
theorem no_dash_pad4 (y : Int) : '-' ∉ (pad4 y).toList := by
  rw [pad4]
  split
  · intro hmem
    rcases List.mem_append.1 hmem with h | h
    · exact absurd h (by decide)
    · exact no_dash_natRepr _ h
  split
  · intro hmem
    rcases List.mem_append.1 hmem with h | h
    · exact absurd h (by decide)
    · exact no_dash_natRepr _ h
  split
  · intro hmem
    rcases List.mem_append.1 hmem with h | h
    · exact absurd h (by decide)
    · exact no_dash_natRepr _ h
  · exact no_dash_natRepr _

/-- A `%d/%m/%Y` rendering never contains a dash, so `_fmt_date` routes it
through the `%d/%m/%Y` parse. -/
theorem containsDash_strftimeDmy (y : Int) (m d : Nat) :
    containsDash (strftimeDmy y m d) = false := by
  rw [containsDash, strftimeDmy]
  simp only [List.elem_eq_mem, decide_eq_false_iff_not]
  intro hmem
  simp only [String.toList, String.data_append] at hmem
  rcases List.mem_append.1 hmem with h | h
  rcases List.mem_append.1 h with h | h
  rcases List.mem_append.1 h with h | h
  rcases List.mem_append.1 h with h | h
  · exact no_dash_pad2 d h
  · exact absurd h (by decide)
  · exact no_dash_pad2 m h
  · exact absurd h (by decide)
  · exact no_dash_pad4 y h

/-- A string accepted by the `%Y-%m-%d` parse contains a dash, so
`_fmt_date` routes it through that parse. -/
theorem strptimeYmd_some_dash (d : String) (t : Int × Nat × Nat)
    (h : strptimeYmd d = some t) : containsDash d = true := by
  rw [strptimeYmd] at h
  split at h
  · rename_i y1 y2 y3 y4 rest heq
    rw [containsDash, heq]
    simp [List.elem_eq_mem]
  · exact absurd h (by simp)

/-- Claim C8 counterexample: the empty string parses as neither date
format, yet the reformatting step returns `None` (a JSON null in the
payload) rather than the string unchanged. -/
theorem fmt_date_empty_returns_none :
    strptimeYmd "" = none ∧ strptimeDmy "" = none ∧
    fmt_date "" = none ∧ fmt_date "" ≠ some "" :=
  ⟨rfl, rfl, rfl, by decide⟩

/-- Claim C8 (amended): for every non-empty date string, the reformatting
step maps a `%Y-%m-%d` parse to its `%d/%m/%Y` rendering, maps a canonical
`%d/%m/%Y` string to itself, returns any string that parses as neither
format unchanged, and always produces a value — it never fails the overall
operation; the empty string alone yields `None`. -/
theorem fmt_date_characterization (d : String) (hne : d ≠ "") :
    (∀ t : Int × Nat × Nat, strptimeYmd d = some t →
      fmt_date d = some (strftimeDmy t.1 t.2.1 t.2.2)) ∧
    (∀ t : Int × Nat × Nat, strptimeDmy d = some t → strftimeDmy t.1 t.2.1 t.2.2 = d →
      fmt_date d = some d) ∧
    (strptimeYmd d = none → strptimeDmy d = none → fmt_date d = some d) ∧
    (∃ r, fmt_date d = some r) := by
  refine ⟨?_, ?_, ?_, ?_⟩
  · intro t ht
    rw [fmt_date, if_neg hne, if_pos (strptimeYmd_some_dash d t ht), ht]
  · intro t ht hround
    have hdash : containsDash d = false := by
      rw [← hround]; exact containsDash_strftimeDmy t.1 t.2.1 t.2.2
    rw [fmt_date, if_neg hne, hdash]
    simp [ht, hround]
  · intro h1 h2
    rw [fmt_date, if_neg hne]
    by_cases hd : containsDash d = true
    · simp [hd, h1]
    · simp at hd
      simp [hd, h2]
  · rw [fmt_date, if_neg hne]
    by_cases hd : containsDash d = true
    · simp only [hd, if_pos]
      cases strptimeYmd d <;> simp
    · simp at hd
      simp only [hd]
      cases strptimeDmy d <;> simp

/-- Claim C8 witness: the characterization applied to a concrete ISO date,
a concrete localized date and a concrete non-date string. -/
theorem fmt_date_characterization_witness :
    fmt_date "2024-01-31" = some "31/01/2024" ∧
    fmt_date "31/01/2024" = some "31/01/2024" ∧
    fmt_date "hola" = some "hola" :=
  ⟨(fmt_date_characterization "2024-01-31" (by decide)).1 (2024, 1, 31) rfl,
   (fmt_date_characterization "31/01/2024" (by decide)).2.1 (2024, 1, 31) rfl rfl,
   (fmt_date_characterization "hola" (by decide)).2.2.1 rfl rfl⟩

/-- A passing `full_clean` implies passing field checks and a passing
`Cliente.clean`. -/
theorem fullClean_none (cl : Cliente) (h : cl.fullClean = none) :
    cl.fieldsValid = true ∧ cl.clean = none := by
  rw [Cliente.fullClean] at h
  split at h
  · exact absurd h (by simp)
  · rename_i hf
    exact ⟨not_not.1 (by simpa using hf), h⟩

/-- The facts guaranteed by a passing `Cliente.clean`. -/
theorem clean_none_facts (cl : Cliente) (h : cl.clean = none) :
    ¬(cl.tipo_persona = 2 ∧ (sexoTruthy cl.sexo = true ∨ edadTruthy cl.edad = true)) ∧
    (∀ e, cl.edad = some e → 0 ≤ e ∧ e ≤ 999) ∧
    (cl.codigo_postal.isEmpty = false →
      cl.codigo_postal.length = 5 ∧ isdigitStr cl.codigo_postal = true) := by
  rw [Cliente.clean] at h
  split at h
  · exact absurd h (by simp)
  rename_i h1
  split at h
  · exact absurd h (by simp)
  rename_i h2
  split at h
  · exact absurd h (by simp)
  rename_i h3
  refine ⟨by simpa using h1, ?_, ?_⟩
  · intro e he
    rw [he] at h2
    simp at h2
    omega
  · intro hne
    push_neg at h3
    exact h3 (by simp [hne])

/-- Claim C9 (amended): every record that passes registry create
validation has an RFC distinct from every stored record's; an entity-type
(persona moral) record carries no sex and no nonzero age — age 0 passes,
since Python's truthiness treats 0 as absent; an age, if present, lies in
[0, 999]; and the postal code is exactly 5 digits. -/
theorem clientes_create_invariant (db : List Cliente) (f : ClienteForm) (c : Cliente)
    (h : clientes_create_post db f = .ok c) :
    (∀ c0 ∈ db, c0.rfc ≠ c.rfc) ∧
    (c.tipo_persona = 2 → c.sexo = none ∧ (c.edad = none ∨ c.edad = some 0)) ∧
    (∀ e, c.edad = some e → 0 ≤ e ∧ e ≤ 999) ∧
    c.codigo_postal.length = 5 ∧ isdigitStr c.codigo_postal = true := by
  simp only [clientes_create_post] at h
  split at h
  · exact absurd h (by simp)
  rename_i hreq
  split at h
  · exact absurd h (by simp)
  rename_i hdup
  split at h
  · exact absurd h (by simp)
  split at h
  · exact absurd h (by simp)
  split at h
  · exact absurd h (by simp)
  split at h
  · exact absurd h (by simp)
  split at h
  · exact absurd h (by simp)
  rename_i ed hed
  split at h
  · exact absurd h (by simp)
  rename_i hclean
  have hrec := Except.ok.inj h
  subst hrec
  obtain ⟨hfields, hcl⟩ := fullClean_none _ hclean
  obtain ⟨hmoral, hrange, hcp⟩ := clean_none_facts _ hcl
  rw [not_not] at hreq
  simp only [Bool.and_eq_true, Bool.not_eq_true'] at hreq
  refine ⟨?_, ?_, ?_, ?_⟩
  · intro c0 hc0 hceq
    apply hdup
    refine List.any_eq_true.2 ⟨c0, hc0, ?_⟩
    simpa using hceq
  · intro htp2
    constructor
    · by_cases hs : (pyStrip f.sexo).isEmpty = true
      · simp [hs]
      · exfalso
        apply hmoral
        refine ⟨htp2, Or.inl ?_⟩
        simp only [sexoTruthy]
        simp [hs]
    · cases ed with
      | none => exact Or.inl rfl
      | some e =>
          by_cases he0 : e = 0
          · subst he0
            exact Or.inr rfl
          · exfalso
            apply hmoral
            refine ⟨htp2, Or.inr ?_⟩
            simp [edadTruthy, he0]
  · exact hrange
  · exact hcp hreq.2

/-- The client form of an entity-type record with age `"0"`. -/
def clienteFormC9 : ClienteForm :=
  { nombre := "ACME SA", rfc := "AAA010101AAA", tipo_persona := "2", estado_id := "1",
    codigo_postal := "12345", municipio_id := "", colonia_id := "", localidad := "",
    sexo := "", edad := "0", estado_nombre := "CDMX", municipio_nombre := "",
    colonia_nombre := "" }

/-- The record the registry creates from `clienteFormC9`. -/
def clienteC9 : Cliente :=
  { nombre := "ACME SA", rfc := "AAA010101AAA", tipo_persona := 2, estado_id := 1,
    estado_nombre := "CDMX", codigo_postal := "12345", municipio_id := none,
    municipio_nombre := "", colonia_id := none, colonia_nombre := "", localidad := "",
    sexo := none, edad := some 0 }

/-- Claim C9 counterexample: an entity-type (persona moral) record with age
0 passes create validation and model cleaning — `if self.sexo or self.edad`
treats the integer 0 as falsy — contradicting the claim that such a record
fails validation. -/
theorem clientes_create_age_zero_moral_passes :
    clientes_create_post [] clienteFormC9 = .ok clienteC9 ∧
    clienteC9.tipo_persona = 2 ∧ clienteC9.edad = some 0 ∧
    Cliente.clean clienteC9 = none :=
  ⟨rfl, rfl, rfl, rfl⟩

/-- Claim C9 witness: the amended invariant applied to the concrete created
record. -/
theorem clientes_create_invariant_witness :
    clienteC9.codigo_postal.length = 5 ∧ isdigitStr clienteC9.codigo_postal = true :=
  (clientes_create_invariant [] clienteFormC9 clienteC9 rfl).2.2.2

/-- A truthy two-way Python `or` is the first truthy of its operands. -/
theorem firstTruthy_two_of_truthy (a b : Json) (h : (pyOrJ a b).truthy = true) :
    firstTruthy [a, b] = some (pyOrJ a b) := by
  by_cases ha : a.truthy = true
  · simp [firstTruthy, List.find?, ha, pyOrJ]
  · simp only [Bool.not_eq_true] at ha
    rw [pyOrJ, if_neg (by simp [ha])] at h ⊢
    simp [firstTruthy, List.find?, ha, h]

/-- A falsy two-way Python `or` means neither operand is truthy. -/
theorem firstTruthy_two_of_falsy (a b : Json) (h : (pyOrJ a b).truthy = false) :
    firstTruthy [a, b] = none := by
  by_cases ha : a.truthy = true
  · rw [pyOrJ, if_pos ha] at h; rw [ha] at h; cases h
  · simp only [Bool.not_eq_true] at ha
    rw [pyOrJ, if_neg (by simp [ha])] at h
    simp [firstTruthy, List.find?, ha, h]

/-- A truthy three-way Python `or` is the first truthy of its operands. -/
theorem firstTruthy_three_of_truthy (x y z : Json)
    (h : (pyOrJ (pyOrJ x y) z).truthy = true) :
    firstTruthy [x, y, z] = some (pyOrJ (pyOrJ x y) z) := by
  by_cases hx : x.truthy = true
  · simp [firstTruthy, List.find?, hx, pyOrJ]
  · simp only [Bool.not_eq_true] at hx
    by_cases hy : y.truthy = true
    · simp [firstTruthy, List.find?, hx, hy, pyOrJ]
    · simp only [Bool.not_eq_true] at hy
      rw [pyOrJ, if_neg (by simp [pyOrJ, hx, hy])] at h ⊢
      simp [firstTruthy, List.find?, hx, hy, h, pyOrJ]

/-- A falsy three-way Python `or` means no operand is truthy. -/
theorem firstTruthy_three_of_falsy (x y z : Json)
    (h : (pyOrJ (pyOrJ x y) z).truthy = false) :
    firstTruthy [x, y, z] = none := by
  by_cases hx : x.truthy = true
  · rw [pyOrJ, if_pos (by rw [pyOrJ, if_pos hx]; exact hx)] at h
    rw [pyOrJ, if_pos hx] at h
    rw [hx] at h; cases h
  · simp only [Bool.not_eq_true] at hx
    by_cases hy : y.truthy = true
    · rw [pyOrJ, if_pos (by rw [pyOrJ, if_neg (by simp [hx])]; exact hy)] at h
      rw [pyOrJ, if_neg (by simp [hx])] at h
      rw [hy] at h; cases h
    · simp only [Bool.not_eq_true] at hy
      rw [pyOrJ, if_neg (by simp [pyOrJ, hx, hy])] at h
      simp [firstTruthy, List.find?, hx, hy, h]

/-- The JWT-shaped fallback only returns strings with exactly two dots. -/
theorem firstJwtish_count (fields : List (String × Json)) (s : String)
    (h : firstJwtish fields = some s) : s.toList.count '.' = 2 := by
  induction fields with
  | nil => cases h
  | cons p rest ih =>
      obtain ⟨k, v⟩ := p
      cases v with
      | str s' =>
          rw [firstJwtish] at h
          split at h
          · cases h; assumption
          · exact ih h
      | null => exact ih h
      | bool b => exact ih h
      | num n => exact ih h
      | arr xs => exact ih h
      | obj fs => exact ih h

/-- A string with exactly two dots is non-empty, hence truthy. -/
theorem firstJwtish_truthy (fields : List (String × Json)) (s : String)
    (h : firstJwtish fields = some s) : (Json.str s).truthy = true := by
  have hc := firstJwtish_count fields s h
  rw [Json.truthy]
  by_contra hne
  simp only [Bool.not_eq_true, Bool.not_eq_false'] at hne
  have : s.toList = [] := by
    cases hs : s.toList with
    | nil => rfl
    | cons c l =>
        exfalso
        rw [String.isEmpty_iff] at hne
        rw [hne] at hs
        cases hs
  rw [this] at hc
  cases hc

set_option maxHeartbeats 2000000 in
/-- The running token of `services.get_token` agrees with the claim's
preference order: when the preference order finds a (truthy) token the code
extracts exactly it, and when it finds none the code's leftover value is
falsy (and is treated as not found). -/
theorem extract_token_spec (d : Json) :
    (∀ t, specFindToken d = some t → extract_token d = t ∧ t.truthy = true) ∧
    (specFindToken d = none → (extract_token d).truthy = false) := by
  cases d with
  | null => simp [specFindToken, extract_token, Json.truthy]
  | bool b => simp [specFindToken, extract_token, Json.truthy]
  | num n => simp [specFindToken, extract_token, Json.truthy]
  | str s => simp [specFindToken, extract_token, Json.truthy]
  | arr xs => simp [specFindToken, extract_token, Json.truthy]
  | obj fields =>
      simp only [specFindToken, extract_token]
      by_cases hA :
          (pyOrJ ((Json.obj fields).getD "token") ((Json.obj fields).getD "access")).truthy = true
      · rw [firstTruthy_two_of_truthy _ _ hA]
        simp only [hA, if_true, Option.orElse]
        exact ⟨fun t ht => ⟨(Option.some.inj ht), (Option.some.inj ht) ▸ hA⟩,
          fun hn => by cases hn⟩
      · simp only [Bool.not_eq_true] at hA
        rw [firstTruthy_two_of_falsy _ _ hA]
        simp only [hA, Bool.false_eq_true, if_false, Option.orElse]
        cases hdata : (Json.obj fields).get "data" with
        | some v =>
            cases v with
            | obj nested =>
                dsimp only
                by_cases hB :
                    (pyOrJ (pyOrJ ((Json.obj nested).getD "token_access")
                      ((Json.obj nested).getD "token")) ((Json.obj nested).getD "access")).truthy = true
                · rw [tokenUnder, firstTruthy_three_of_truthy _ _ _ hB]
                  simp only [hB, if_true]
                  exact ⟨fun t ht => ⟨(Option.some.inj ht), (Option.some.inj ht) ▸ hB⟩,
                    fun hn => by simp at hn⟩
                · simp only [Bool.not_eq_true] at hB
                  rw [tokenUnder, firstTruthy_three_of_falsy _ _ _ hB]
                  simp only [hB, Bool.false_eq_true, if_false]
                  cases huser : (Json.obj fields).get "user" with
                  | some w =>
                      cases w with
                      | obj u =>
                          dsimp only
                          by_cases hU :
                              (pyOrJ (pyOrJ ((Json.obj u).getD "token_access")
                                ((Json.obj u).getD "token")) ((Json.obj u).getD "access")).truthy = true
                          · rw [tokenUnder, firstTruthy_three_of_truthy _ _ _ hU]
                            simp only [hU, if_true]
                            exact ⟨fun t ht => ⟨(Option.some.inj ht), (Option.some.inj ht) ▸ hU⟩,
                              fun hn => by simp at hn⟩
                          · simp only [Bool.not_eq_true] at hU
                            rw [tokenUnder, firstTruthy_three_of_falsy _ _ _ hU]
                            simp only [hU, Bool.false_eq_true, if_false]
                            cases hj : firstJwtish fields with
                            | some s =>
                                dsimp only [Option.map]
                                exact ⟨fun t ht => ⟨Option.some.inj ht,
                                    (Option.some.inj ht) ▸ firstJwtish_truthy fields s hj⟩,
                                  fun hn => by simp at hn⟩
                            | none =>
                                dsimp only [Option.map]
                                exact ⟨fun t ht => absurd ht (by simp), fun _ => hU⟩
                      | null =>
                          dsimp only
                          simp only [hB, Bool.false_eq_true, if_false]
                          cases hj : firstJwtish fields with
                          | some s =>
                              dsimp only [Option.map]
                              exact ⟨fun t ht => ⟨Option.some.inj ht,
                                  (Option.some.inj ht) ▸ firstJwtish_truthy fields s hj⟩,
                                fun hn => by simp at hn⟩
                          | none =>
                              dsimp only [Option.map]
                              exact ⟨fun t ht => absurd ht (by simp), fun _ => hB⟩
                      | bool b2 =>
                          dsimp only
                          simp only [hB, Bool.false_eq_true, if_false]
                          cases hj : firstJwtish fields with
                          | some s =>
                              dsimp only [Option.map]
                              exact ⟨fun t ht => ⟨Option.some.inj ht,
                                  (Option.some.inj ht) ▸ firstJwtish_truthy fields s hj⟩,
                                fun hn => by simp at hn⟩
                          | none =>
                              dsimp only [Option.map]
                              exact ⟨fun t ht => absurd ht (by simp), fun _ => hB⟩
                      | num n2 =>
                          dsimp only
                          simp only [hB, Bool.false_eq_true, if_false]
                          cases hj : firstJwtish fields with
                          | some s =>
                              dsimp only [Option.map]
                              exact ⟨fun t ht => ⟨Option.some.inj ht,
                                  (Option.some.inj ht) ▸ firstJwtish_truthy fields s hj⟩,
                                fun hn => by simp at hn⟩
                          | none =>
                              dsimp only [Option.map]
                              exact ⟨fun t ht => absurd ht (by simp), fun _ => hB⟩
                      | str s2 =>
                          dsimp only
                          simp only [hB, Bool.false_eq_true, if_false]
                          cases hj : firstJwtish fields with
                          | some s =>
                              dsimp only [Option.map]
                              exact ⟨fun t ht => ⟨Option.some.inj ht,
                                  (Option.some.inj ht) ▸ firstJwtish_truthy fields s hj⟩,
                                fun hn => by simp at hn⟩
                          | none =>
                              dsimp only [Option.map]
                              exact ⟨fun t ht => absurd ht (by simp), fun _ => hB⟩
                      | arr xs2 =>
                          dsimp only
                          simp only [hB, Bool.false_eq_true, if_false]
                          cases hj : firstJwtish fields with
                          | some s =>
                              dsimp only [Option.map]
                              exact ⟨fun t ht => ⟨Option.some.inj ht,
                                  (Option.some.inj ht) ▸ firstJwtish_truthy fields s hj⟩,
                                fun hn => by simp at hn⟩
                          | none =>
                              dsimp only [Option.map]
                              exact ⟨fun t ht => absurd ht (by simp), fun _ => hB⟩
                  | none =>
                      dsimp only
                      simp only [hB, Bool.false_eq_true, if_false]
                      cases hj : firstJwtish fields with
                      | some s =>
                          dsimp only [Option.map]
                          exact ⟨fun t ht => ⟨Option.some.inj ht,
                              (Option.some.inj ht) ▸ firstJwtish_truthy fields s hj⟩,
                            fun hn => by simp at hn⟩
                      | none =>
                          dsimp only [Option.map]
                          exact ⟨fun t ht => absurd ht (by simp), fun _ => hB⟩
            | null =>
                dsimp only
                simp only [hA, Bool.false_eq_true, if_false]
                cases huser : (Json.obj fields).get "user" with
                | some w =>
                    cases w with
                    | obj u =>
                        dsimp only
                        by_cases hU :
                            (pyOrJ (pyOrJ ((Json.obj u).getD "token_access")
                              ((Json.obj u).getD "token")) ((Json.obj u).getD "access")).truthy = true
                        · rw [tokenUnder, firstTruthy_three_of_truthy _ _ _ hU]
                          simp only [hU, if_true]
                          exact ⟨fun t ht => ⟨(Option.some.inj ht), (Option.some.inj ht) ▸ hU⟩,
                            fun hn => by simp at hn⟩
                        · simp only [Bool.not_eq_true] at hU
                          rw [tokenUnder, firstTruthy_three_of_falsy _ _ _ hU]
                          simp only [hU, Bool.false_eq_true, if_false]
                          cases hj : firstJwtish fields with
                          | some s =>
                              dsimp only [Option.map]
                              exact ⟨fun t ht => ⟨Option.some.inj ht,
                                  (Option.some.inj ht) ▸ firstJwtish_truthy fields s hj⟩,
                                fun hn => by simp at hn⟩
                          | none =>
                              dsimp only [Option.map]
                              exact ⟨fun t ht => absurd ht (by simp), fun _ => hU⟩
                    | null =>
                        dsimp only
                        simp only [hA, Bool.false_eq_true, if_false]
                        cases hj : firstJwtish fields with
                        | some s =>
                            dsimp only [Option.map]
                            exact ⟨fun t ht => ⟨Option.some.inj ht,
                                (Option.some.inj ht) ▸ firstJwtish_truthy fields s hj⟩,
                              fun hn => by simp at hn⟩
                        | none =>
                            dsimp only [Option.map]
                            exact ⟨fun t ht => absurd ht (by simp), fun _ => hA⟩
                    | bool b2 =>
                        dsimp only
                        simp only [hA, Bool.false_eq_true, if_false]
                        cases hj : firstJwtish fields with
                        | some s =>
                            dsimp only [Option.map]
                            exact ⟨fun t ht => ⟨Option.some.inj ht,
                                (Option.some.inj ht) ▸ firstJwtish_truthy fields s hj⟩,
                              fun hn => by simp at hn⟩
                        | none =>
                            dsimp only [Option.map]
                            exact ⟨fun t ht => absurd ht (by simp), fun _ => hA⟩
                    | num n2 =>
                        dsimp only
                        simp only [hA, Bool.false_eq_true, if_false]
                        cases hj : firstJwtish fields with
                        | some s =>
                            dsimp only [Option.map]
                            exact ⟨fun t ht => ⟨Option.some.inj ht,
                                (Option.some.inj ht) ▸ firstJwtish_truthy fields s hj⟩,
                              fun hn => by simp at hn⟩
                        | none =>
                            dsimp only [Option.map]
                            exact ⟨fun t ht => absurd ht (by simp), fun _ => hA⟩
                    | str s2 =>
                        dsimp only
                        simp only [hA, Bool.false_eq_true, if_false]
                        cases hj : firstJwtish fields with
                        | some s =>
                            dsimp only [Option.map]
                            exact ⟨fun t ht => ⟨Option.some.inj ht,
                                (Option.some.inj ht) ▸ firstJwtish_truthy fields s hj⟩,
                              fun hn => by simp at hn⟩
                        | none =>
                            dsimp only [Option.map]
                            exact ⟨fun t ht => absurd ht (by simp), fun _ => hA⟩
                    | arr xs2 =>
                        dsimp only
                        simp only [hA, Bool.false_eq_true, if_false]
                        cases hj : firstJwtish fields with
                        | some s =>
                            dsimp only [Option.map]
                            exact ⟨fun t ht => ⟨Option.some.inj ht,
                                (Option.some.inj ht) ▸ firstJwtish_truthy fields s hj⟩,
                              fun hn => by simp at hn⟩
                        | none =>
                            dsimp only [Option.map]
                            exact ⟨fun t ht => absurd ht (by simp), fun _ => hA⟩
                | none =>
                    dsimp only
                    simp only [hA, Bool.false_eq_true, if_false]
                    cases hj : firstJwtish fields with
                    | some s =>
                        dsimp only [Option.map]
                        exact ⟨fun t ht => ⟨Option.some.inj ht,
                            (Option.some.inj ht) ▸ firstJwtish_truthy fields s hj⟩,
                          fun hn => by simp at hn⟩
                    | none =>
                        dsimp only [Option.map]
                        exact ⟨fun t ht => absurd ht (by simp), fun _ => hA⟩
            | bool b =>
                dsimp only
                simp only [hA, Bool.false_eq_true, if_false]
                cases huser : (Json.obj fields).get "user" with
                | some w =>
                    cases w with
                    | obj u =>
                        dsimp only
                        by_cases hU :
                            (pyOrJ (pyOrJ ((Json.obj u).getD "token_access")
                              ((Json.obj u).getD "token")) ((Json.obj u).getD "access")).truthy = true
                        · rw [tokenUnder, firstTruthy_three_of_truthy _ _ _ hU]
                          simp only [hU, if_true]
                          exact ⟨fun t ht => ⟨(Option.some.inj ht), (Option.some.inj ht) ▸ hU⟩,
                            fun hn => by simp at hn⟩
                        · simp only [Bool.not_eq_true] at hU
                          rw [tokenUnder, firstTruthy_three_of_falsy _ _ _ hU]
                          simp only [hU, Bool.false_eq_true, if_false]
                          cases hj : firstJwtish fields with
                          | some s =>
                              dsimp only [Option.map]
                              exact ⟨fun t ht => ⟨Option.some.inj ht,
                                  (Option.some.inj ht) ▸ firstJwtish_truthy fields s hj⟩,
                                fun hn => by simp at hn⟩
                          | none =>
                              dsimp only [Option.map]
                              exact ⟨fun t ht => absurd ht (by simp), fun _ => hU⟩
                    | null =>
                        dsimp only
                        simp only [hA, Bool.false_eq_true, if_false]
                        cases hj : firstJwtish fields with
                        | some s =>
                            dsimp only [Option.map]
                            exact ⟨fun t ht => ⟨Option.some.inj ht,
                                (Option.some.inj ht) ▸ firstJwtish_truthy fields s hj⟩,
                              fun hn => by simp at hn⟩
                        | none =>
                            dsimp only [Option.map]
                            exact ⟨fun t ht => absurd ht (by simp), fun _ => hA⟩
                    | bool b2 =>
                        dsimp only
                        simp only [hA, Bool.false_eq_true, if_false]
                        cases hj : firstJwtish fields with
                        | some s =>
                            dsimp only [Option.map]
                            exact ⟨fun t ht => ⟨Option.some.inj ht,
                                (Option.some.inj ht) ▸ firstJwtish_truthy fields s hj⟩,
                              fun hn => by simp at hn⟩
                        | none =>
                            dsimp only [Option.map]
                            exact ⟨fun t ht => absurd ht (by simp), fun _ => hA⟩
                    | num n2 =>
                        dsimp only
                        simp only [hA, Bool.false_eq_true, if_false]
                        cases hj : firstJwtish fields with
                        | some s =>
                            dsimp only [Option.map]
                            exact ⟨fun t ht => ⟨Option.some.inj ht,
                                (Option.some.inj ht) ▸ firstJwtish_truthy fields s hj⟩,
                              fun hn => by simp at hn⟩
                        | none =>
                            dsimp only [Option.map]
                            exact ⟨fun t ht => absurd ht (by simp), fun _ => hA⟩
                    | str s2 =>
                        dsimp only
                        simp only [hA, Bool.false_eq_true, if_false]
                        cases hj : firstJwtish fields with
                        | some s =>
                            dsimp only [Option.map]
                            exact ⟨fun t ht => ⟨Option.some.inj ht,
                                (Option.some.inj ht) ▸ firstJwtish_truthy fields s hj⟩,
                              fun hn => by simp at hn⟩
                        | none =>
                            dsimp only [Option.map]
                            exact ⟨fun t ht => absurd ht (by simp), fun _ => hA⟩
                    | arr xs2 =>
                        dsimp only
                        simp only [hA, Bool.false_eq_true, if_false]
                        cases hj : firstJwtish fields with
                        | some s =>
                            dsimp only [Option.map]
                            exact ⟨fun t ht => ⟨Option.some.inj ht,
                                (Option.some.inj ht) ▸ firstJwtish_truthy fields s hj⟩,
                              fun hn => by simp at hn⟩
                        | none =>
                            dsimp only [Option.map]
                            exact ⟨fun t ht => absurd ht (by simp), fun _ => hA⟩
                | none =>
                    dsimp only
                    simp only [hA, Bool.false_eq_true, if_false]
                    cases hj : firstJwtish fields with
                    | some s =>
                        dsimp only [Option.map]
                        exact ⟨fun t ht => ⟨Option.some.inj ht,
                            (Option.some.inj ht) ▸ firstJwtish_truthy fields s hj⟩,
                          fun hn => by simp at hn⟩
                    | none =>
                        dsimp only [Option.map]
                        exact ⟨fun t ht => absurd ht (by simp), fun _ => hA⟩
            | num n =>
                dsimp only
                simp only [hA, Bool.false_eq_true, if_false]
                cases huser : (Json.obj fields).get "user" with
                | some w =>
                    cases w with
                    | obj u =>
                        dsimp only
                        by_cases hU :
                            (pyOrJ (pyOrJ ((Json.obj u).getD "token_access")
                              ((Json.obj u).getD "token")) ((Json.obj u).getD "access")).truthy = true
                        · rw [tokenUnder, firstTruthy_three_of_truthy _ _ _ hU]
                          simp only [hU, if_true]
                          exact ⟨fun t ht => ⟨(Option.some.inj ht), (Option.some.inj ht) ▸ hU⟩,
                            fun hn => by simp at hn⟩
                        · simp only [Bool.not_eq_true] at hU
                          rw [tokenUnder, firstTruthy_three_of_falsy _ _ _ hU]
                          simp only [hU, Bool.false_eq_true, if_false]
                          cases hj : firstJwtish fields with
                          | some s =>
                              dsimp only [Option.map]
                              exact ⟨fun t ht => ⟨Option.some.inj ht,
                                  (Option.some.inj ht) ▸ firstJwtish_truthy fields s hj⟩,
                                fun hn => by simp at hn⟩
                          | none =>
                              dsimp only [Option.map]
                              exact ⟨fun t ht => absurd ht (by simp), fun _ => hU⟩
                    | null =>
                        dsimp only
                        simp only [hA, Bool.false_eq_true, if_false]
                        cases hj : firstJwtish fields with
                        | some s =>
                            dsimp only [Option.map]
                            exact ⟨fun t ht => ⟨Option.some.inj ht,
                                (Option.some.inj ht) ▸ firstJwtish_truthy fields s hj⟩,
                              fun hn => by simp at hn⟩
                        | none =>
                            dsimp only [Option.map]
                            exact ⟨fun t ht => absurd ht (by simp), fun _ => hA⟩
                    | bool b2 =>
                        dsimp only
                        simp only [hA, Bool.false_eq_true, if_false]
                        cases hj : firstJwtish fields with
                        | some s =>
                            dsimp only [Option.map]
                            exact ⟨fun t ht => ⟨Option.some.inj ht,
                                (Option.some.inj ht) ▸ firstJwtish_truthy fields s hj⟩,
                              fun hn => by simp at hn⟩
                        | none =>
                            dsimp only [Option.map]
                            exact ⟨fun t ht => absurd ht (by simp), fun _ => hA⟩
                    | num n2 =>
                        dsimp only
                        simp only [hA, Bool.false_eq_true, if_false]
                        cases hj : firstJwtish fields with
                        | some s =>
                            dsimp only [Option.map]
                            exact ⟨fun t ht => ⟨Option.some.inj ht,
                                (Option.some.inj ht) ▸ firstJwtish_truthy fields s hj⟩,
                              fun hn => by simp at hn⟩
                        | none =>
                            dsimp only [Option.map]
                            exact ⟨fun t ht => absurd ht (by simp), fun _ => hA⟩
                    | str s2 =>
                        dsimp only
                        simp only [hA, Bool.false_eq_true, if_false]
                        cases hj : firstJwtish fields with
                        | some s =>
                            dsimp only [Option.map]
                            exact ⟨fun t ht => ⟨Option.some.inj ht,
                                (Option.some.inj ht) ▸ firstJwtish_truthy fields s hj⟩,
                              fun hn => by simp at hn⟩
                        | none =>
                            dsimp only [Option.map]
                            exact ⟨fun t ht => absurd ht (by simp), fun _ => hA⟩
                    | arr xs2 =>
                        dsimp only
                        simp only [hA, Bool.false_eq_true, if_false]
                        cases hj : firstJwtish fields with
                        | some s =>
                            dsimp only [Option.map]
                            exact ⟨fun t ht => ⟨Option.some.inj ht,
                                (Option.some.inj ht) ▸ firstJwtish_truthy fields s hj⟩,
                              fun hn => by simp at hn⟩
                        | none =>
                            dsimp only [Option.map]
                            exact ⟨fun t ht => absurd ht (by simp), fun _ => hA⟩
                | none =>
                    dsimp only
                    simp only [hA, Bool.false_eq_true, if_false]
                    cases hj : firstJwtish fields with
                    | some s =>
                        dsimp only [Option.map]
                        exact ⟨fun t ht => ⟨Option.some.inj ht,
                            (Option.some.inj ht) ▸ firstJwtish_truthy fields s hj⟩,
                          fun hn => by simp at hn⟩
                    | none =>
                        dsimp only [Option.map]
                        exact ⟨fun t ht => absurd ht (by simp), fun _ => hA⟩
            | str s =>
                dsimp only
                simp only [hA, Bool.false_eq_true, if_false]
                cases huser : (Json.obj fields).get "user" with
                | some w =>
                    cases w with
                    | obj u =>
                        dsimp only
                        by_cases hU :
                            (pyOrJ (pyOrJ ((Json.obj u).getD "token_access")
                              ((Json.obj u).getD "token")) ((Json.obj u).getD "access")).truthy = true
                        · rw [tokenUnder, firstTruthy_three_of_truthy _ _ _ hU]
                          simp only [hU, if_true]
                          exact ⟨fun t ht => ⟨(Option.some.inj ht), (Option.some.inj ht) ▸ hU⟩,
                            fun hn => by simp at hn⟩
                        · simp only [Bool.not_eq_true] at hU
                          rw [tokenUnder, firstTruthy_three_of_falsy _ _ _ hU]
                          simp only [hU, Bool.false_eq_true, if_false]
                          cases hj : firstJwtish fields with
                          | some s =>
                              dsimp only [Option.map]
                              exact ⟨fun t ht => ⟨Option.some.inj ht,
                                  (Option.some.inj ht) ▸ firstJwtish_truthy fields s hj⟩,
                                fun hn => by simp at hn⟩
                          | none =>
                              dsimp only [Option.map]
                              exact ⟨fun t ht => absurd ht (by simp), fun _ => hU⟩
                    | null =>
                        dsimp only
                        simp only [hA, Bool.false_eq_true, if_false]
                        cases hj : firstJwtish fields with
                        | some s =>
                            dsimp only [Option.map]
                            exact ⟨fun t ht => ⟨Option.some.inj ht,
                                (Option.some.inj ht) ▸ firstJwtish_truthy fields s hj⟩,
                              fun hn => by simp at hn⟩
                        | none =>
                            dsimp only [Option.map]
                            exact ⟨fun t ht => absurd ht (by simp), fun _ => hA⟩
                    | bool b2 =>
                        dsimp only
                        simp only [hA, Bool.false_eq_true, if_false]
                        cases hj : firstJwtish fields with
                        | some s =>
                            dsimp only [Option.map]
                            exact ⟨fun t ht => ⟨Option.some.inj ht,
                                (Option.some.inj ht) ▸ firstJwtish_truthy fields s hj⟩,
                              fun hn => by simp at hn⟩
                        | none =>
                            dsimp only [Option.map]
                            exact ⟨fun t ht => absurd ht (by simp), fun _ => hA⟩
                    | num n2 =>
                        dsimp only
                        simp only [hA, Bool.false_eq_true, if_false]
                        cases hj : firstJwtish fields with
                        | some s =>
                            dsimp only [Option.map]
                            exact ⟨fun t ht => ⟨Option.some.inj ht,
                                (Option.some.inj ht) ▸ firstJwtish_truthy fields s hj⟩,
                              fun hn => by simp at hn⟩
                        | none =>
                            dsimp only [Option.map]
                            exact ⟨fun t ht => absurd ht (by simp), fun _ => hA⟩
                    | str s2 =>
                        dsimp only
                        simp only [hA, Bool.false_eq_true, if_false]
                        cases hj : firstJwtish fields with
                        | some s =>
                            dsimp only [Option.map]
                            exact ⟨fun t ht => ⟨Option.some.inj ht,
                                (Option.some.inj ht) ▸ firstJwtish_truthy fields s hj⟩,
                              fun hn => by simp at hn⟩
                        | none =>
                            dsimp only [Option.map]
                            exact ⟨fun t ht => absurd ht (by simp), fun _ => hA⟩
                    | arr xs2 =>
                        dsimp only
                        simp only [hA, Bool.false_eq_true, if_false]
                        cases hj : firstJwtish fields with
                        | some s =>
                            dsimp only [Option.map]
                            exact ⟨fun t ht => ⟨Option.some.inj ht,
                                (Option.some.inj ht) ▸ firstJwtish_truthy fields s hj⟩,
                              fun hn => by simp at hn⟩
                        | none =>
                            dsimp only [Option.map]
                            exact ⟨fun t ht => absurd ht (by simp), fun _ => hA⟩
                | none =>
                    dsimp only
                    simp only [hA, Bool.false_eq_true, if_false]
                    cases hj : firstJwtish fields with
                    | some s =>
                        dsimp only [Option.map]
                        exact ⟨fun t ht => ⟨Option.some.inj ht,
                            (Option.some.inj ht) ▸ firstJwtish_truthy fields s hj⟩,
                          fun hn => by simp at hn⟩
                    | none =>
                        dsimp only [Option.map]
                        exact ⟨fun t ht => absurd ht (by simp), fun _ => hA⟩
            | arr xs =>
                dsimp only
                simp only [hA, Bool.false_eq_true, if_false]
                cases huser : (Json.obj fields).get "user" with
                | some w =>
                    cases w with
                    | obj u =>
                        dsimp only
                        by_cases hU :
                            (pyOrJ (pyOrJ ((Json.obj u).getD "token_access")
                              ((Json.obj u).getD "token")) ((Json.obj u).getD "access")).truthy = true
                        · rw [tokenUnder, firstTruthy_three_of_truthy _ _ _ hU]
                          simp only [hU, if_true]
                          exact ⟨fun t ht => ⟨(Option.some.inj ht), (Option.some.inj ht) ▸ hU⟩,
                            fun hn => by simp at hn⟩
                        · simp only [Bool.not_eq_true] at hU
                          rw [tokenUnder, firstTruthy_three_of_falsy _ _ _ hU]
                          simp only [hU, Bool.false_eq_true, if_false]
                          cases hj : firstJwtish fields with
                          | some s =>
                              dsimp only [Option.map]
                              exact ⟨fun t ht => ⟨Option.some.inj ht,
                                  (Option.some.inj ht) ▸ firstJwtish_truthy fields s hj⟩,
                                fun hn => by simp at hn⟩
                          | none =>
                              dsimp only [Option.map]
                              exact ⟨fun t ht => absurd ht (by simp), fun _ => hU⟩
                    | null =>
                        dsimp only
                        simp only [hA, Bool.false_eq_true, if_false]
                        cases hj : firstJwtish fields with
                        | some s =>
                            dsimp only [Option.map]
                            exact ⟨fun t ht => ⟨Option.some.inj ht,
                                (Option.some.inj ht) ▸ firstJwtish_truthy fields s hj⟩,
                              fun hn => by simp at hn⟩
                        | none =>
                            dsimp only [Option.map]
                            exact ⟨fun t ht => absurd ht (by simp), fun _ => hA⟩
                    | bool b2 =>
                        dsimp only
                        simp only [hA, Bool.false_eq_true, if_false]
                        cases hj : firstJwtish fields with
                        | some s =>
                            dsimp only [Option.map]
                            exact ⟨fun t ht => ⟨Option.some.inj ht,
                                (Option.some.inj ht) ▸ firstJwtish_truthy fields s hj⟩,
                              fun hn => by simp at hn⟩
                        | none =>
                            dsimp only [Option.map]
                            exact ⟨fun t ht => absurd ht (by simp), fun _ => hA⟩
                    | num n2 =>
                        dsimp only
                        simp only [hA, Bool.false_eq_true, if_false]
                        cases hj : firstJwtish fields with
                        | some s =>
                            dsimp only [Option.map]
                            exact ⟨fun t ht => ⟨Option.some.inj ht,
                                (Option.some.inj ht) ▸ firstJwtish_truthy fields s hj⟩,
                              fun hn => by simp at hn⟩
                        | none =>
                            dsimp only [Option.map]
                            exact ⟨fun t ht => absurd ht (by simp), fun _ => hA⟩
                    | str s2 =>
                        dsimp only
                        simp only [hA, Bool.false_eq_true, if_false]
                        cases hj : firstJwtish fields with
                        | some s =>
                            dsimp only [Option.map]
                            exact ⟨fun t ht => ⟨Option.some.inj ht,
                                (Option.some.inj ht) ▸ firstJwtish_truthy fields s hj⟩,
                              fun hn => by simp at hn⟩
                        | none =>
                            dsimp only [Option.map]
                            exact ⟨fun t ht => absurd ht (by simp), fun _ => hA⟩
                    | arr xs2 =>
                        dsimp only
                        simp only [hA, Bool.false_eq_true, if_false]
                        cases hj : firstJwtish fields with
                        | some s =>
                            dsimp only [Option.map]
                            exact ⟨fun t ht => ⟨Option.some.inj ht,
                                (Option.some.inj ht) ▸ firstJwtish_truthy fields s hj⟩,
                              fun hn => by simp at hn⟩
                        | none =>
                            dsimp only [Option.map]
                            exact ⟨fun t ht => absurd ht (by simp), fun _ => hA⟩
                | none =>
                    dsimp only
                    simp only [hA, Bool.false_eq_true, if_false]
                    cases hj : firstJwtish fields with
                    | some s =>
                        dsimp only [Option.map]
                        exact ⟨fun t ht => ⟨Option.some.inj ht,
                            (Option.some.inj ht) ▸ firstJwtish_truthy fields s hj⟩,
                          fun hn => by simp at hn⟩
                    | none =>
                        dsimp only [Option.map]
                        exact ⟨fun t ht => absurd ht (by simp), fun _ => hA⟩
        | none =>
            dsimp only
            simp only [hA, Bool.false_eq_true, if_false]
            cases huser : (Json.obj fields).get "user" with
            | some w =>
                cases w with
                | obj u =>
                    dsimp only
                    by_cases hU :
                        (pyOrJ (pyOrJ ((Json.obj u).getD "token_access")
                          ((Json.obj u).getD "token")) ((Json.obj u).getD "access")).truthy = true
                    · rw [tokenUnder, firstTruthy_three_of_truthy _ _ _ hU]
                      simp only [hU, if_true]
                      exact ⟨fun t ht => ⟨(Option.some.inj ht), (Option.some.inj ht) ▸ hU⟩,
                        fun hn => by simp at hn⟩
                    · simp only [Bool.not_eq_true] at hU
                      rw [tokenUnder, firstTruthy_three_of_falsy _ _ _ hU]
                      simp only [hU, Bool.false_eq_true, if_false]
                      cases hj : firstJwtish fields with
                      | some s =>
                          dsimp only [Option.map]
                          exact ⟨fun t ht => ⟨Option.some.inj ht,
                              (Option.some.inj ht) ▸ firstJwtish_truthy fields s hj⟩,
                            fun hn => by simp at hn⟩
                      | none =>
                          dsimp only [Option.map]
                          exact ⟨fun t ht => absurd ht (by simp), fun _ => hU⟩
                | null =>
                    dsimp only
                    simp only [hA, Bool.false_eq_true, if_false]
                    cases hj : firstJwtish fields with
                    | some s =>
                        dsimp only [Option.map]
                        exact ⟨fun t ht => ⟨Option.some.inj ht,
                            (Option.some.inj ht) ▸ firstJwtish_truthy fields s hj⟩,
                          fun hn => by simp at hn⟩
                    | none =>
                        dsimp only [Option.map]
                        exact ⟨fun t ht => absurd ht (by simp), fun _ => hA⟩
                | bool b2 =>
                    dsimp only
                    simp only [hA, Bool.false_eq_true, if_false]
                    cases hj : firstJwtish fields with
                    | some s =>
                        dsimp only [Option.map]
                        exact ⟨fun t ht => ⟨Option.some.inj ht,
                            (Option.some.inj ht) ▸ firstJwtish_truthy fields s hj⟩,
                          fun hn => by simp at hn⟩
                    | none =>
                        dsimp only [Option.map]
                        exact ⟨fun t ht => absurd ht (by simp), fun _ => hA⟩
                | num n2 =>
                    dsimp only
                    simp only [hA, Bool.false_eq_true, if_false]
                    cases hj : firstJwtish fields with
                    | some s =>
                        dsimp only [Option.map]
                        exact ⟨fun t ht => ⟨Option.some.inj ht,
                            (Option.some.inj ht) ▸ firstJwtish_truthy fields s hj⟩,
                          fun hn => by simp at hn⟩
                    | none =>
                        dsimp only [Option.map]
                        exact ⟨fun t ht => absurd ht (by simp), fun _ => hA⟩
                | str s2 =>
                    dsimp only
                    simp only [hA, Bool.false_eq_true, if_false]
                    cases hj : firstJwtish fields with
                    | some s =>
                        dsimp only [Option.map]
                        exact ⟨fun t ht => ⟨Option.some.inj ht,
                            (Option.some.inj ht) ▸ firstJwtish_truthy fields s hj⟩,
                          fun hn => by simp at hn⟩
                    | none =>
                        dsimp only [Option.map]
                        exact ⟨fun t ht => absurd ht (by simp), fun _ => hA⟩
                | arr xs2 =>
                    dsimp only
                    simp only [hA, Bool.false_eq_true, if_false]
                    cases hj : firstJwtish fields with
                    | some s =>
                        dsimp only [Option.map]
                        exact ⟨fun t ht => ⟨Option.some.inj ht,
                            (Option.some.inj ht) ▸ firstJwtish_truthy fields s hj⟩,
                          fun hn => by simp at hn⟩
                    | none =>
                        dsimp only [Option.map]
                        exact ⟨fun t ht => absurd ht (by simp), fun _ => hA⟩
            | none =>
                dsimp only
                simp only [hA, Bool.false_eq_true, if_false]
                cases hj : firstJwtish fields with
                | some s =>
                    dsimp only [Option.map]
                    exact ⟨fun t ht => ⟨Option.some.inj ht,
                        (Option.some.inj ht) ▸ firstJwtish_truthy fields s hj⟩,
                      fun hn => by simp at hn⟩
                | none =>
                    dsimp only [Option.map]
                    exact ⟨fun t ht => absurd ht (by simp), fun _ => hA⟩

/-- Claim C4: `Authenticate` returns the token found, in order of
preference, at top-level `token`/`access`, then under a dict-valued `data`
(`token_access`/`token`/`access`), then under a dict-valued `user`, then —
as a last resort — the first top-level string value with exactly two dots;
it fails with a descriptive error exactly when none of these yields a
token, the transport fails, the HTTP status is an error, or the body is
not JSON. -/
theorem get_token_characterization :
    (∀ (status : Nat) (d : Json) (text : String) (t : Json), status < 400 →
      (get_token (.response status (some d) text) = .ok t ↔ specFindToken d = some t)) ∧
    (∀ (status : Nat) (d : Json) (text : String), status < 400 → specFindToken d = none →
      ∃ e, get_token (.response status (some d) text) = .error e) ∧
    (∀ (status : Nat) (d : Json) (text : String), 400 ≤ status →
      ∃ e, get_token (.response status (some d) text) = .error e) ∧
    (∀ (status : Nat) (text : String),
      ∃ e, get_token (.response status none text) = .error e) ∧
    (∀ m, ∃ e, get_token (.transportError m) = .error e) := by
  refine ⟨?_, ?_, ?_, ?_, ?_⟩
  · intro status d text t hlt
    constructor
    · intro h
      rw [get_token, if_neg (by omega)] at h
      dsimp only at h
      by_cases he : (extract_token d).truthy = true
      · rw [if_pos he] at h
        have ht := Except.ok.inj h
        cases hs : specFindToken d with
        | none =>
            exact absurd he (by rw [(extract_token_spec d).2 hs]; simp)
        | some t' =>
            obtain ⟨he', _⟩ := (extract_token_spec d).1 t' hs
            rw [← ht, ← he']
      · rw [if_neg he] at h
        cases h
    · intro hs
      obtain ⟨hext, htr⟩ := (extract_token_spec d).1 t hs
      rw [get_token, if_neg (by omega)]
      dsimp only
      rw [hext, if_pos htr]
  · intro status d text hlt hs
    rw [get_token, if_neg (by omega)]
    dsimp only
    rw [if_neg (by rw [(extract_token_spec d).2 hs]; simp)]
    exact ⟨_, rfl⟩
  · intro status d text hge
    rw [get_token, if_pos hge]
    exact ⟨_, rfl⟩
  · intro status text
    rw [get_token]
    split
    · exact ⟨_, rfl⟩
    · exact ⟨_, rfl⟩
  · intro m
    exact ⟨_, rfl⟩

/-- A token response of the documented `data.token_access` shape. -/
def tokenBodyC4 : Json :=
  .obj [("data", .obj [("token_access", .str "a.b.c")])]

/-- Claim C4 witness: the characterization applied to a 200 response with
the documented nested shape yields exactly the nested token. -/
theorem get_token_characterization_witness :
    get_token (.response 200 (some tokenBodyC4) "") = .ok (.str "a.b.c") :=
  (get_token_characterization.1 200 tokenBodyC4 "" (.str "a.b.c") (by omega)).mpr rfl

/-- The priority-key loop agrees with its declarative `findSome?` probe. -/
theorem prioLoop_eq (ks : List String) (fields : List (String × Json)) :
    prioLoop ks fields = ks.findSome? (specPrioProbe fields) := by
  induction ks with
  | nil => rfl
  | cons k rest ih =>
      rw [prioLoop, List.findSome?_cons, specPrioProbe]
      cases hl : lookupField fields k with
      | none => simpa using ih
      | some v =>
          cases v with
          | str s =>
              by_cases hs : (pyStrip s).isEmpty
              · simpa [hs] using ih
              · simp [hs]
          | arr l =>
              by_cases hl' : l.isEmpty
              · simpa [hl'] using ih
              · simp [hl']
          | null => simpa using ih
          | bool b => simpa using ih
          | num n => simpa using ih
          | obj fs => simpa using ih

/-- The fallback loop agrees with its declarative `findSome?` probe. -/
theorem firstStrippedValue_eq (fields : List (String × Json)) :
    firstStrippedValue fields = fields.findSome? specFallbackProbe := by
  induction fields with
  | nil => rfl
  | cons p rest ih =>
      obtain ⟨k, v⟩ := p
      cases v with
      | str s =>
          rw [firstStrippedValue, List.findSome?_cons, specFallbackProbe]
          by_cases hs : (pyStrip s).isEmpty
          · simpa [hs] using ih
          · simp [hs]
      | null => simpa [firstStrippedValue, List.findSome?_cons, specFallbackProbe] using ih
      | bool b => simpa [firstStrippedValue, List.findSome?_cons, specFallbackProbe] using ih
      | num n => simpa [firstStrippedValue, List.findSome?_cons, specFallbackProbe] using ih
      | arr xs => simpa [firstStrippedValue, List.findSome?_cons, specFallbackProbe] using ih
      | obj fs => simpa [firstStrippedValue, List.findSome?_cons, specFallbackProbe] using ih

/-- The nested-container loop of `get_token`'s extractor agrees with the
policy's nested probe, given agreement on structurally smaller objects. -/
theorem gtNestedLoop_eq (fields : List (String × Json))
    (hrec : ∀ nested : List (String × Json),
      sizeOf (Json.obj nested) < sizeOf (Json.obj fields) →
      extractMessageGT (.obj nested) = specPolicy ["data", "user", "errors"] (.obj nested)) :
    ∀ pending, gtNestedLoop pending fields =
      pending.findSome? (fun k => specNestedProbe ["data", "user", "errors"] fields k) := by
  intro pending
  induction pending with
  | nil => simp [gtNestedLoop]
  | cons k rest ih =>
      rw [gtNestedLoop, List.findSome?_cons, specNestedProbe]
      cases hl : lookupField fields k with
      | none => simpa using ih
      | some v =>
          cases v with
          | obj nested =>
              dsimp only
              have hsz : sizeOf (Json.obj nested) < sizeOf (Json.obj fields) := by
                have := lookupField_sizeOf_lt fields k _ hl
                simp only [Json.obj.sizeOf_spec] at this ⊢
                omega
              rw [hrec nested hsz]
              cases specPolicy ["data", "user", "errors"] (.obj nested) with
              | none => simpa using ih
              | some m =>
                  by_cases hm : m.isEmpty
                  · simpa [hm] using ih
                  · simp [hm]
          | null => simpa using ih
          | bool b => simpa using ih
          | num n => simpa using ih
          | str s => simpa using ih
          | arr xs => simpa using ih

/-- Theorem: `get_token`'s `_extract_message` is the shared policy instantiated
with nested keys `data`, `user`, `errors`. -/
theorem extractMessageGT_eq_specPolicy (j : Json) :
    extractMessageGT j = specPolicy ["data", "user", "errors"] j := by
  have H : ∀ (n : Nat) (j : Json), sizeOf j ≤ n →
      extractMessageGT j = specPolicy ["data", "user", "errors"] j := by
    intro n
    induction n with
    | zero => intro j hj; cases j <;> simp at hj
    | succ n ih =>
        intro j hj
        cases j with
        | null => simp [extractMessageGT, specPolicy]
        | bool b => simp [extractMessageGT, specPolicy]
        | num m => simp [extractMessageGT, specPolicy]
        | str s => simp [extractMessageGT, specPolicy]
        | arr xs => simp [extractMessageGT, specPolicy]
        | obj fields =>
            rw [extractMessageGT, specPolicy, prioLoop_eq,
              gtNestedLoop_eq fields (fun nested hs => ih (.obj nested) (by
                simp only [Json.obj.sizeOf_spec] at hs hj ⊢
                omega)) ["data", "user", "errors"],
              firstStrippedValue_eq]
            simp only [Option.orElse]
            split
            · rename_i s heq
              rw [heq]
            · rename_i heq
              rw [heq]
              split
              · rename_i s2 heq2
                rw [heq2]
              · rename_i heq2
                rw [heq2]
  exact H (sizeOf j) j le_rfl

/-- The nested-container loop of the public/protected GET extractor agrees
with the policy's nested probe, given agreement on smaller objects. -/
theorem pubNestedLoop_eq (fields : List (String × Json))
    (hrec : ∀ nested : List (String × Json),
      sizeOf (Json.obj nested) < sizeOf (Json.obj fields) →
      extractMessagePub (.obj nested) = specPolicy ["data", "errors", "response"] (.obj nested)) :
    ∀ pending, pubNestedLoop pending fields =
      pending.findSome? (fun k => specNestedProbe ["data", "errors", "response"] fields k) := by
  intro pending
  induction pending with
  | nil => simp [pubNestedLoop]
  | cons k rest ih =>
      rw [pubNestedLoop, List.findSome?_cons, specNestedProbe]
      cases hl : lookupField fields k with
      | none => simpa using ih
      | some v =>
          cases v with
          | obj nested =>
              dsimp only
              have hsz : sizeOf (Json.obj nested) < sizeOf (Json.obj fields) := by
                have := lookupField_sizeOf_lt fields k _ hl
                simp only [Json.obj.sizeOf_spec] at this ⊢
                omega
              rw [hrec nested hsz]
              cases specPolicy ["data", "errors", "response"] (.obj nested) with
              | none => simpa using ih
              | some m =>
                  by_cases hm : m.isEmpty
                  · simpa [hm] using ih
                  · simp [hm]
          | null => simpa using ih
          | bool b => simpa using ih
          | num n => simpa using ih
          | str s => simpa using ih
          | arr xs => simpa using ih

/-- The public/protected GET `_extract_message` is the shared policy
instantiated with nested keys `data`, `errors`, `response`. -/
theorem extractMessagePub_eq_specPolicy (j : Json) :
    extractMessagePub j = specPolicy ["data", "errors", "response"] j := by
  have H : ∀ (n : Nat) (j : Json), sizeOf j ≤ n →
      extractMessagePub j = specPolicy ["data", "errors", "response"] j := by
    intro n
    induction n with
    | zero => intro j hj; cases j <;> simp at hj
    | succ n ih =>
        intro j hj
        cases j with
        | null => simp [extractMessagePub, specPolicy]
        | bool b => simp [extractMessagePub, specPolicy]
        | num m => simp [extractMessagePub, specPolicy]
        | str s => simp [extractMessagePub, specPolicy]
        | arr xs => simp [extractMessagePub, specPolicy]
        | obj fields =>
            rw [extractMessagePub, specPolicy, prioLoop_eq,
              pubNestedLoop_eq fields (fun nested hs => ih (.obj nested) (by
                simp only [Json.obj.sizeOf_spec] at hs hj ⊢
                omega)) ["data", "errors", "response"],
              firstStrippedValue_eq]
            simp only [Option.orElse]
            split
            · rename_i s heq
              rw [heq]
            · rename_i heq
              rw [heq]
              split
              · rename_i s2 heq2
                rw [heq2]
              · rename_i heq2
                rw [heq2]
  exact H (sizeOf j) j le_rfl


/-- The REUNE chain value is a function of the four top-level priority
lookups alone. -/
theorem reuneTopChain_getD (d : Json) :
    reuneTopChain d =
      pyOrJ (pyOrJ (pyOrJ (d.getD "message") (d.getD "msg")) (d.getD "detail"))
        (d.getD "error") := by
  cases d <;> simp [reuneTopChain, Json.getD, Json.get, pyOrJ, Json.truthy]

/-- The REUNE POST error message never trims, joins, recurses or falls back
to other string fields: it depends only on the top-level
`message`/`msg`/`detail`/`error` values. -/
theorem reuneErrMsg_top_level_only (status : Nat) (d d' : Json)
    (h : ∀ k, k ∈ (["message", "msg", "detail", "error"] : List String) →
      d.getD k = d'.getD k) :
    reuneErrMsg status d = reuneErrMsg status d' := by
  have hm := h "message" (by simp)
  have h2 := h "msg" (by simp)
  have h3 := h "detail" (by simp)
  have h4 := h "error" (by simp)
  rw [reuneErrMsg, reuneErrMsg, reuneTopChain_getD, reuneTopChain_getD, hm, h2, h3, h4]

/-- Stepping lemma for evaluating findSome? key by key: a head probe
returning none passes the search to the tail. -/
theorem findSomeCons_none {α β : Type} (f : α → Option β) (a : α) (as : List α)
    (h : f a = none) : List.findSome? f (a :: as) = List.findSome? f as := by
  rw [List.findSome?_cons, h]

/-- Stepping lemma for evaluating findSome? key by key: a head probe
returning a value stops the search. -/
theorem findSomeCons_some {α β : Type} (f : α → Option β) (a : α) (as : List α) (b : β)
    (h : f a = some b) : List.findSome? f (a :: as) = some b := by
  rw [List.findSome?_cons, h]

/-- An error body carrying its message under the `user` container. -/
def errBodyC5 : Json := .obj [("user", .obj [("message", .str "boom")])]

/-- Claim C5 counterexample: the operations do not share one extraction
policy with nested keys `data`/`user`/`errors`/`response`: that policy
finds "boom" under `user`, but the public GET extractor (whose nested keys
omit `user`) finds nothing and the user-facing message degrades to the
generic status text; the REUNE POST path does not even recurse into
`data`; and a padded top-level message is returned stripped, not as-is. -/
theorem message_policy_not_shared :
    specPolicy ["data", "user", "errors", "response"] errBodyC5 = some "boom" ∧
    extractMessagePub errBodyC5 = none ∧
    pubHttpErrorMsg 400 errBodyC5 = "API returned 400" ∧
    extractMessageGT errBodyC5 = some "boom" ∧
    reuneErrMsg 400 (Json.obj [("data", Json.obj [("message", Json.str "boom")])]) =
      "API REUNE retornó error 400" ∧
    extractMessagePub (Json.obj [("message", Json.str "  boom  ")]) = some "boom" := by
  have hpIn : List.findSome? (specPrioProbe [("message", Json.str "boom")])
      ["message", "msg", "detail", "error"] = some "boom" := by decide
  have hinner : ∀ ks, specPolicy ks (Json.obj [("message", Json.str "boom")]) = some "boom" := by
    intro ks
    rw [specPolicy, hpIn]
    rfl
  have hpOut : List.findSome? (specPrioProbe [("user", Json.obj [("message", Json.str "boom")])])
      ["message", "msg", "detail", "error"] = none := by decide
  have hProbeNone : ∀ ks k, lookupField [("user", Json.obj [("message", Json.str "boom")])] k = none →
      specNestedProbe ks [("user", Json.obj [("message", Json.str "boom")])] k = none := by
    intro ks k hk
    rw [specNestedProbe]
    split
    · rename_i nested h
      rw [hk] at h
      cases h
    · rfl
  have hProbeUser : ∀ ks, specNestedProbe ks
      [("user", Json.obj [("message", Json.str "boom")])] "user" = some "boom" := by
    intro ks
    rw [specNestedProbe]
    split
    · rename_i nested h
      have : nested = [("message", Json.str "boom")] := by
        cases (Option.some.inj h)
        rfl
      subst this
      rw [hinner ks]
      rfl
    · rename_i h
      exact absurd rfl (h [("message", Json.str "boom")])
  have hns4 : List.findSome?
      (fun k => specNestedProbe ["data", "user", "errors", "response"]
        [("user", Json.obj [("message", Json.str "boom")])] k)
      ["data", "user", "errors", "response"] = some "boom" := by
    rw [findSomeCons_none
      (fun k => specNestedProbe ["data", "user", "errors", "response"]
        [("user", Json.obj [("message", Json.str "boom")])] k)
      "data" ["user", "errors", "response"]
      (hProbeNone ["data", "user", "errors", "response"] "data" rfl)]
    exact findSomeCons_some
      (fun k => specNestedProbe ["data", "user", "errors", "response"]
        [("user", Json.obj [("message", Json.str "boom")])] k)
      "user" ["errors", "response"] "boom"
      (hProbeUser ["data", "user", "errors", "response"])
  have hns3 : List.findSome?
      (fun k => specNestedProbe ["data", "user", "errors"]
        [("user", Json.obj [("message", Json.str "boom")])] k)
      ["data", "user", "errors"] = some "boom" := by
    rw [findSomeCons_none
      (fun k => specNestedProbe ["data", "user", "errors"]
        [("user", Json.obj [("message", Json.str "boom")])] k)
      "data" ["user", "errors"]
      (hProbeNone ["data", "user", "errors"] "data" rfl)]
    exact findSomeCons_some
      (fun k => specNestedProbe ["data", "user", "errors"]
        [("user", Json.obj [("message", Json.str "boom")])] k)
      "user" ["errors"] "boom"
      (hProbeUser ["data", "user", "errors"])
  have hnsPub : List.findSome?
      (fun k => specNestedProbe ["data", "errors", "response"]
        [("user", Json.obj [("message", Json.str "boom")])] k)
      ["data", "errors", "response"] = none := by
    rw [findSomeCons_none
      (fun k => specNestedProbe ["data", "errors", "response"]
        [("user", Json.obj [("message", Json.str "boom")])] k)
      "data" ["errors", "response"]
      (hProbeNone ["data", "errors", "response"] "data" rfl)]
    rw [findSomeCons_none
      (fun k => specNestedProbe ["data", "errors", "response"]
        [("user", Json.obj [("message", Json.str "boom")])] k)
      "errors" ["response"]
      (hProbeNone ["data", "errors", "response"] "errors" rfl)]
    rw [findSomeCons_none
      (fun k => specNestedProbe ["data", "errors", "response"]
        [("user", Json.obj [("message", Json.str "boom")])] k)
      "response" []
      (hProbeNone ["data", "errors", "response"] "response" rfl)]
    rfl
  have hSpec4 : specPolicy ["data", "user", "errors", "response"] errBodyC5 = some "boom" := by
    rw [errBodyC5, specPolicy, hpOut, hns4]
    rfl
  have hSpec3 : specPolicy ["data", "user", "errors"] errBodyC5 = some "boom" := by
    rw [errBodyC5, specPolicy, hpOut, hns3]
    rfl
  have hSpecPub : specPolicy ["data", "errors", "response"] errBodyC5 = none := by
    rw [errBodyC5, specPolicy, hpOut, hnsPub]
    rfl
  have hPubNone : extractMessagePub errBodyC5 = none :=
    (extractMessagePub_eq_specPolicy errBodyC5).trans hSpecPub
  refine ⟨hSpec4, hPubNone, ?_, (extractMessageGT_eq_specPolicy errBodyC5).trans hSpec3, rfl, ?_⟩
  · rw [pubHttpErrorMsg, hPubNone]
    rfl
  · have hp6 : List.findSome? (specPrioProbe [("message", Json.str "  boom  ")])
        ["message", "msg", "detail", "error"] = some "boom" := by decide
    refine (extractMessagePub_eq_specPolicy _).trans ?_
    rw [specPolicy, hp6]
    rfl

/-- Claim C5 (amended): message extraction follows the shared parameterized
policy, but with per-operation nested container keys — `get_token` recurses
into `data`/`user`/`errors`, the catalog GET calls into
`data`/`errors`/`response` — while the two POST operations use only the
top-level priority chain, with no trimming, joining, recursion or
string-field fallback; non-blank strings are taken stripped, not as-is. -/
theorem message_policy_per_operation :
    (∀ d, extractMessageGT d = specPolicy ["data", "user", "errors"] d) ∧
    (∀ d, extractMessagePub d = specPolicy ["data", "errors", "response"] d) ∧
    (∀ (status : Nat) (d d' : Json),
      (∀ k, k ∈ (["message", "msg", "detail", "error"] : List String) →
        d.getD k = d'.getD k) →
      reuneErrMsg status d = reuneErrMsg status d') :=
  ⟨extractMessageGT_eq_specPolicy, extractMessagePub_eq_specPolicy,
   reuneErrMsg_top_level_only⟩

/-- Claim C5 witness: the per-operation policy applied to the concrete
`user`-container body and to a REUNE body pair agreeing on the top-level
priority keys. -/
theorem message_policy_per_operation_witness :
    extractMessageGT errBodyC5 = specPolicy ["data", "user", "errors"] errBodyC5 ∧
    reuneErrMsg 404 (Json.obj []) = reuneErrMsg 404 Json.null :=
  ⟨message_policy_per_operation.1 errBodyC5,
   message_policy_per_operation.2.2 404 (Json.obj []) Json.null (fun k _ => rfl)⟩
